import Mathlib

/-!
# contester: a shallow embedding of `main.go`

The program is one linear script that talks to Google Drive, Sheets and Forms
and to an image host.  Every external call is modelled as a query to a `World`
(an oracle fixing what each call returns); the script itself is a value of
`Prog`, which records the calls made in order (with the error each returned, if
any) and the way the run ends: normally, by `log.Fatalf`, or by a panic.

Machine integers: every integer of the script is a slice index or a small
multiple of a slice length (`i*2 + 3`, `len*2 + 2`), far below `2^63` for any
slice that fits in memory, so they are modelled by `Nat` without wrap-around.
-/

namespace Contester

/-! ## The shuffle loop (main.go 276-280) -/

/-- Go's `a[i], a[j] = a[j], a[i]`: both reads happen first (either panics when
out of range, here `none`), then `a[i]` and `a[j]` are written. -/
def swap {α : Type} (xs : List α) (i j : Nat) : Option (List α) :=
  match xs[i]?, xs[j]? with
  | some a, some b => some ((xs.set i b).set j a)
  | _, _ => none

/-- The first `k` iterations of `for i := range rows { j := rand.Intn(i + 1); swap }`,
where `draw i` is the value `rand.Intn(i + 1)` returns in iteration `i`. -/
def shuffleSteps {α : Type} (draw : Nat → Nat) (xs : List α) : Nat → Option (List α)
  | 0 => some xs
  | k + 1 => (shuffleSteps draw xs k).bind fun ys => swap ys k (draw k)

/-- The whole loop: one iteration per row. -/
def shuffle {α : Type} (draw : Nat → Nat) (xs : List α) : Option (List α) :=
  shuffleSteps draw xs xs.length

/-- The draws `j_0 .. j_{n-1}` are in range: `0 ≤ j_i ≤ i`, as `rand.Intn(i + 1)`
guarantees. -/
def ValidDraws (n : Nat) (draw : Nat → Nat) : Prop := ∀ i, i < n → draw i ≤ i

/-! ## `strings.Split(link, "=")[1]` (main.go 284, 290) -/

/-- Go's `strings.Split(s, sep)` for a one-character separator, on the
characters of `s`: the pieces between consecutive occurrences of `sep`. -/
def splitChars (sep : Char) : List Char → List (List Char)
  | [] => [[]]
  | c :: cs =>
    if c = sep then [] :: splitChars sep cs
    else
      match splitChars sep cs with
      | [] => [[c]]
      | p :: ps => (c :: p) :: ps

/-- The call `strings.Split(s, "=")`. -/
def stringsSplit (s : String) : List String :=
  (splitChars '=' s.data).map String.mk

/-- The expression `strings.Split(fmt.Sprintf("%s", row[2]), "=")[1]` of
main.go 284 and 290: `none` when the index is out of range. -/
def fileIdOf (link : String) : Option String :=
  (stringsSplit link)[1]?

/-! ## Data model -/

abbrev Err := String

/-- The fields of `drive.File` the script reads. -/
structure DriveFile where
  id : String
  name : String
  webContentLink : String
  thumbnailLink : String
  deriving DecidableEq

/-- A `forms.Option`: `Value` and `Image.SourceUri`. -/
structure FormOption where
  value : String
  image : String
  deriving DecidableEq

/-- The one-of body of a `forms.Item`. -/
inductive ItemKind
  | textQuestion (required : Bool) (paragraph : Bool)
  | choiceQuestion (required : Bool) (type : String) (options : List FormOption)
      (shuffled : Bool)
  | pageBreakItem
  | imageItem (sourceUri : String)
  deriving DecidableEq

/-- A `forms.Item`. -/
structure Item where
  title : String
  description : String
  kind : ItemKind
  deriving DecidableEq

/-- A `forms.CreateItemRequest`: the item and its `Location.Index`. -/
structure CreateItemRequest where
  item : Item
  index : Nat
  forceSendFields : List String
  deriving DecidableEq

/-- What `upload` posts for one form field. -/
inductive Reader
  | file (name : String)
  | text (s : String)

/-- The external calls of the script. -/
inductive Call
  | atoi (s : String)
  | loadDotenv (file : String)
  | readFile (name : String)
  | configFromJSON (b : String)
  | osOpen (name : String)
  | decodeToken
  | scanAuthCode
  | exchange (code : String)
  | openTokenFile (path : String)
  | encodeToken
  | newDriveService
  | newSheetsService
  | newFormsService
  | filesList (q : String)
  | spreadsheetsGet (id : String)
  | valuesGet (id : String) (range : String)
  | formsCreate (title : String)
  | filesUpdate (id : String) (addParents : String)
  | batchUpdate (formId : String) (requests : List CreateItemRequest)
  | filesGet (id : String)
  | filesDownload (id : String)
  | openFile (name : String)
  | copy
  | mustOpen (name : String)
  | upload (url : String)
  | getString (data : String) (keys : List String)
  | printf (s : String)
  | println (links : List String) (thumbs : List String)
  deriving DecidableEq

/-- One call as it happened: the call and the error it returned, if any. -/
structure Event where
  call : Call
  err : Option Err
  deriving DecidableEq

/-- How a run ends early: `log.Fatalf` or a panic. -/
inductive Stop
  | fatal (msg : String)
  | panic (msg : String)
  deriving DecidableEq

/-- A piece of the script run against a fixed world: the calls it made, in
order, and its result. -/
structure Prog (α : Type) where
  log : List Event
  res : Except Stop α

/-- Sequencing: when the first part stops, nothing of the second part runs. -/
def Prog.bind {α β : Type} (m : Prog α) (f : α → Prog β) : Prog β :=
  match m.res with
  | .error e => ⟨m.log, .error e⟩
  | .ok a => ⟨m.log ++ (f a).log, (f a).res⟩

instance : Monad Prog where
  pure a := ⟨[], .ok a⟩
  bind := Prog.bind

/-- The error of a call result, if any. -/
def errOf {α : Type} : Except Err α → Option Err
  | .ok _ => none
  | .error e => some e

/-- Make an external call whose outcome in this world is `r`. -/
def call {α : Type} (c : Call) (r : Except Err α) : Prog (Except Err α) :=
  ⟨[⟨c, errOf r⟩], .ok r⟩

/-- The statement `log.Fatalf(msg, err)`. -/
def fatalf {α : Type} (msg : String) (e : Err) : Prog α :=
  ⟨[], .error (.fatal (msg ++ e))⟩

/-- A run-time panic. -/
def panic {α : Type} (msg : String) : Prog α :=
  ⟨[], .error (.panic msg)⟩

/-- The idiom `if err != nil { log.Fatalf(msg, err) }`. -/
def check {α : Type} (r : Except Err α) (msg : String) : Prog α :=
  match r with
  | .ok a => pure a
  | .error e => fatalf msg e

/-- The index expression `xs[i]`, which panics when out of range. -/
def index {α : Type} (xs : List α) (i : Nat) : Prog α :=
  match xs[i]? with
  | some a => pure a
  | none => panic "index out of range"

/-- The loop `for i, x := range xs { body }` over the loop-carried state,
started at index `i`. -/
def forRange {α σ : Type} (body : Nat → α → σ → Prog σ) : Nat → List α → σ → Prog σ
  | _, [], s => pure s
  | i, x :: xs, s => do
    let s1 ← body i x s
    forRange body (i + 1) xs s1

/-! ## `upload` (main.go 83-136) -/

/-- A `*http.Response`, as far as `upload` reads it. -/
structure HttpResponse where
  statusCode : Nat
  status : String
  body : String

/-- The outcomes of the calls `upload` makes. -/
structure UploadEnv where
  createField : String → Except Err Unit
  copyField : String → Except Err Unit
  newRequest : Except Err Unit
  doRequest : Except Err HttpResponse

/-- The loop of main.go 87-107 over the entries of `values` in the order the
`range` visits them: the first error of `CreateFormFile`, `CreateFormField` or
`io.Copy`, if any. -/
def writeFields (e : UploadEnv) : List (String × Reader) → Option Err
  | [] => none
  | (key, _) :: rest =>
    match e.createField key with
    | .error err => some err
    | .ok _ =>
      match e.copyField key with
      | .error err => some err
      | .ok _ => writeFields e rest

/-- The function `upload`: the pair `(resp, err)` it returns. -/
def upload (e : UploadEnv) (_url : String) (values : List (String × Reader)) :
    String × Option Err :=
  match writeFields e values with
  | some err => ("", some err)
  | none =>
    match e.newRequest with
    | .error err => ("", some err)
    | .ok _ =>
      match e.doRequest with
      | .error err => ("", some err)
      | .ok res =>
        if res.statusCode ≠ 200 then (res.body, some ("bad status: " ++ res.status))
        else (res.body, none)

/-! ## The world -/

/-- What every external call of `main` returns.  Calls made once per submission
take the iteration number as their first argument. -/
structure World where
  args : List String
  atoi : String → Except Err Int
  loadDotenv : String → Except Err Unit
  getenv : String → String
  readFile : String → Except Err String
  configFromJSON : String → Except Err Unit
  osOpen : String → Except Err Unit
  decodeToken : Except Err Unit
  scanAuthCode : Except Err String
  exchange : String → Except Err Unit
  openTokenFile : String → Except Err Unit
  encodeToken : Except Err Unit
  newDriveService : Except Err Unit
  newSheetsService : Except Err Unit
  newFormsService : Except Err Unit
  filesList : String → Except Err (List DriveFile)
  spreadsheetsGet : String → Except Err (List String)
  valuesGet : String → String → Except Err (List (List String))
  formsCreate : String → Except Err Unit
  filesUpdate : String → String → Except Err Unit
  batchUpdate : String → List CreateItemRequest → Except Err Unit
  intn : Nat → Nat
  filesGet : Nat → String → Except Err DriveFile
  filesDownload : Nat → String → Except Err Unit
  openFile : Nat → Except Err Unit
  copy : Nat → Except Err Unit
  mustOpen : Nat → Except Err Unit
  rangeOrder : Nat → List (String × Reader) → List (String × Reader)
  uploadEnv : Nat → UploadEnv
  getString : String → List String → Except Err String

/-! ## `getClient` and its helpers (main.go 28-81) -/

/-- The function `tokenFromFile`: the error it returns, if any. -/
def tokenFromFile (w : World) (file : String) : Prog (Except Err Unit) := do
  match ← call (.osOpen file) (w.osOpen file) with
  | .error e => pure (.error e)
  | .ok _ => call .decodeToken w.decodeToken

/-- The function `getTokenFromWeb`. -/
def getTokenFromWeb (w : World) : Prog Unit := do
  let _ ← call (.printf "Go to the following link in your browser") (.ok ())
  let authCode ← check (← call .scanAuthCode w.scanAuthCode) "Unable to read authorization code "
  check (← call (.exchange authCode) (w.exchange authCode)) "Unable to retrieve token from web "

/-- The function `saveToken`; the result of `Encode` is dropped. -/
def saveToken (w : World) (path : String) : Prog Unit := do
  let _ ← call (.printf ("Saving credential file to: " ++ path)) (.ok ())
  check (← call (.openTokenFile path) (w.openTokenFile path)) "Unable to cache oauth token: "
  let _ ← call .encodeToken w.encodeToken
  pure ()

/-- The function `getClient`. -/
def getClient (w : World) : Prog Unit := do
  match ← tokenFromFile w "token.json" with
  | .error _ => do
    getTokenFromWeb w
    saveToken w "token.json"
  | .ok _ => pure ()

/-! ## `main`, first half (main.go 146-231): everything before the form is filled -/

/-- The local variables of `main` that the second half reads. -/
structure Context where
  pkmn : String
  number : Int
  categories : List String
  key : String
  posturl : String
  rows : List (List String)
  formId : String

/-- The format string of main.go 193 applied to `number`. -/
def sheetQuery (number : Int) : String :=
  "name contains '" ++ toString number ++ " (Responses)' and not name contains 'File' or name contains '" ++
    toString number ++ " (Risposte)' and not name contains 'File'"

/-- The format string of main.go 216 applied to `number`. -/
def folderQuery (number : Int) : String :=
  "name contains 'Contest #" ++ toString number ++ "' and not name contains 'Art'"

/-- The format string of main.go 224 applied to `number`. -/
def formQuery (number : Int) : String :=
  "name contains 'Art Contest #" ++ toString number ++ " Voting'"

/-- The form title of main.go 223. -/
def formTitle (number : Int) (pkmn : String) : String :=
  "Pokémon Workshop Art Contest #" ++ toString number ++ " " ++ pkmn ++ " Voting"

/-- The body of the loop of main.go 210-213. -/
def printRow (_i : Nat) (row : List String) (_s : Unit) : Prog Unit := do
  let user ← index row 0
  let link ← index row 2
  let _ ← call (.printf (user ++ ", " ++ link ++ "\n")) (.ok ())
  pure ()

/-- Lines 146-231 of `main`. -/
def setup (w : World) : Prog Context := do
  -- parse input
  let pkmn ← index w.args 1
  let arg2 ← index w.args 2
  let parsed ← call (.atoi arg2) (w.atoi arg2)
  let categories := w.args.drop 3
  let number ← check parsed "Unable to parse number: "
  -- img api
  check (← call (.loadDotenv ".env") (w.loadDotenv ".env")) "Unable to load .env file: "
  let key := w.getenv "API_KEY"
  let posturl := "https://freeimage.host/api/1/upload?key=" ++ key ++ "&action=upload"
  -- read credentials
  let b ← check (← call (.readFile "credentials.json") (w.readFile "credentials.json"))
    "Unable to read client secret file: "
  check (← call (.configFromJSON b) (w.configFromJSON b))
    "Unable to parse client secret file to config: "
  getClient w
  -- create clients
  check (← call .newDriveService w.newDriveService) "Unable to retrieve Drive client: "
  check (← call .newSheetsService w.newSheetsService) "Unable to retrieve Sheets client: "
  check (← call .newFormsService w.newFormsService) "Unable to retrieve Forms client: "
  -- locate spreadsheet
  let sheetFile ← check (← call (.filesList (sheetQuery number)) (w.filesList (sheetQuery number)))
    "Unable to find form responses sheet (was it created from the form?): "
  let sheetId := (← index sheetFile 0).id
  let sheets ← check (← call (.spreadsheetsGet sheetId) (w.spreadsheetsGet sheetId))
    "Unable to get spreadsheet from file: "
  let readRange := (← index sheets 0) ++ "!B2:D"
  let submissions ← check (← call (.valuesGet sheetId readRange) (w.valuesGet sheetId readRange))
    "Unable to retrieve data from sheet: "
  forRange printRow 0 submissions ()
  -- find contest folder
  let folder ← check (← call (.filesList (folderQuery number)) (w.filesList (folderQuery number)))
    "Unable to retrieve files: "
  -- create form: both results of the call are dropped
  let _ ← call (.formsCreate (formTitle number pkmn)) (w.formsCreate (formTitle number pkmn))
  let form ← check (← call (.filesList (formQuery number)) (w.filesList (formQuery number)))
    "Unable to retrieve files: "
  let formId := (← index form 0).id
  let folderId := (← index folder 0).id
  check (← call (.filesUpdate formId folderId) (w.filesUpdate formId folderId))
    "Unable to move file: "
  pure ⟨pkmn, number, categories, key, posturl, submissions, formId⟩

/-! ## `main`, second half (main.go 233-536): filling the form -/

/-- The two requests of main.go 234-268. -/
def introRequests : List CreateItemRequest :=
  [⟨⟨"Discord Username", "", .textQuestion true false⟩, 0, ["Index"]⟩,
   ⟨⟨"The Submissions!",
      "You will be presented with all the submissions first. You will be able to vote on them after viewing all of them.",
      .pageBreakItem⟩, 1, []⟩]

/-- The filler image of main.go 336. -/
def placeholderUrl : String := "https://picsum.photos/800"

/-- The two requests of main.go 379-407 for submission `i` with image `url`. -/
def submissionRequests (i : Nat) (url : String) : List CreateItemRequest :=
  [⟨⟨"Option " ++ toString (i + 1), "", .pageBreakItem⟩, i * 2 + 2, []⟩,
   ⟨⟨"", "", .imageItem url⟩, i * 2 + 3, []⟩]

/-- The title of main.go 443 for category `cat`. -/
def categoryTitle (cat : String) : String :=
  "Which entries fit \"" ++ cat ++ "\" best? Vote up to " ++ toString 3 ++
    "! (Please remember to try to vote for different entries for each category!)"

/-- The two requests of main.go 427-461 for category `cat`. -/
def categoryRequests (cat : String) (location : Nat) (options : List FormOption) :
    List CreateItemRequest :=
  [⟨⟨cat, "", .pageBreakItem⟩, location, []⟩,
   ⟨⟨categoryTitle cat, "", .choiceQuestion true "CHECKBOX" options false⟩, location + 1, []⟩]

/-- The title of main.go 484. -/
def wildcardTitle : String :=
  "Which entries do you feel are worthy of recognition? Vote up to " ++ toString 3 ++
    "! (Please remember to try to vote for different entries for each category!)"

/-- The four requests of main.go 468-532. -/
def closingRequests (location : Nat) (options : List FormOption) : List CreateItemRequest :=
  [⟨⟨"Wildcard", "", .pageBreakItem⟩, location, []⟩,
   ⟨⟨wildcardTitle, "", .choiceQuestion true "CHECKBOX" options false⟩, location + 1, []⟩,
   ⟨⟨"Feedback",
      "We want these contests to be the best they can be. Please tell us any suggestions/concerns you may have!",
      .pageBreakItem⟩, location + 2, []⟩,
   ⟨⟨"Optional Feedback", "", .textQuestion false true⟩, location + 3, []⟩]

/-- The loop of main.go 418-425, started at index `i` with `options` built so far. -/
def appendOptions : Nat → List String → List FormOption → List FormOption
  | _, [], options => options
  | i, link :: rest, options =>
    appendOptions (i + 1) rest (options ++ [⟨"Option " ++ toString (i + 1), link⟩])

/-- The slices `thumbs` and `links` of `main`. -/
structure Lists where
  thumbs : List String
  links : List String
  deriving DecidableEq

/-- Lines 284-310 of the loop body for row `i`: image metadata, download and
local copy.  Returns `img.ThumbnailLink`. -/
def fetchImage (w : World) (i : Nat) (row : List String) : Prog String := do
  let link ← index row 2
  let id ← index (stringsSplit link) 1
  let img ← check (← call (.filesGet id) (w.filesGet i id)) "Unable to get image: "
  let link2 ← index row 2
  let id2 ← index (stringsSplit link2) 1
  check (← call (.filesDownload id2) (w.filesDownload i id2)) "Unable to download image: "
  check (← call (.openFile "img") (w.openFile i)) "Unable to open file: "
  check (← call .copy (w.copy i)) "Unable to write file: "
  pure img.thumbnailLink

/-- The map `values` of main.go 330-334, in the order `upload` ranges over it in
iteration `i`. -/
def uploadValues (w : World) (ctx : Context) (i : Nat) : List (String × Reader) :=
  w.rangeOrder i
    [("source", Reader.file "img"), ("key", Reader.text ctx.key), ("action", Reader.text "upload")]

/-- Lines 330-347 of the loop body for row `i`: re-hosting the image.  Returns
the local variable `url`. -/
def rehost (w : World) (ctx : Context) (i : Nat) : Prog String := do
  -- mustOpen("img") panics on error
  let opened ← call (.mustOpen "img") (w.mustOpen i)
  match opened with
  | .error e => panic e
  | .ok _ => do
    let r := upload (w.uploadEnv i) ctx.posturl (uploadValues w ctx i)
    let _ ← (⟨[⟨.upload ctx.posturl, r.2⟩], .ok ()⟩ : Prog Unit)
    match r.2 with
    | some _ => pure placeholderUrl
    | none => do
      let parsed ← call (.getString r.1 ["image", "url"]) (w.getString r.1 ["image", "url"])
      check parsed "Unable to parse response: "

/-- The body of the loop of main.go 283-412 for row `i`.  The two `append`s are
gathered at the end: when the iteration stops early the process exits and the
slices are never read again. -/
def submissionStep (w : World) (ctx : Context) (i : Nat) (row : List String) (s : Lists) :
    Prog Lists := do
  let thumb ← fetchImage w i row
  let url ← rehost w ctx i
  check (← call (.batchUpdate ctx.formId (submissionRequests i url))
    (w.batchUpdate ctx.formId (submissionRequests i url))) "Unable to update form: "
  pure ⟨s.thumbs ++ [thumb], s.links ++ [url]⟩

/-- The body of the loop of main.go 426-466; the loop-carried state is `location`. -/
def categoryStep (w : World) (ctx : Context) (options : List FormOption) (_i : Nat)
    (cat : String) (location : Nat) : Prog Nat := do
  check (← call (.batchUpdate ctx.formId (categoryRequests cat location options))
    (w.batchUpdate ctx.formId (categoryRequests cat location options))) "Unable to update form: "
  pure (location + 2)

/-- The loop of main.go 276-280 on `submissions.Values`, with the draws of this
world; an out-of-range index would panic. -/
def randomize (w : World) (rows : List (List String)) : Prog (List (List String)) :=
  match shuffle w.intn rows with
  | some shuffled => pure shuffled
  | none => panic "index out of range"

/-- The local variables of `main` when it returns. -/
structure Locals where
  rows : List (List String)
  thumbs : List String
  links : List String
  options : List FormOption
  location : Nat

/-- Lines 233-536 of `main`. -/
def buildForm (w : World) (ctx : Context) : Prog Locals := do
  -- form sections 1-2
  check (← call (.batchUpdate ctx.formId introRequests) (w.batchUpdate ctx.formId introRequests))
    "Unable to update form: "
  -- randomize order
  let rows ← randomize w ctx.rows
  -- insert images in form
  let lists ← forRange (submissionStep w ctx) 0 rows ⟨[], []⟩
  -- add voting questions
  let location := rows.length * 2 + 2
  let _ ← call (.println lists.links lists.thumbs) (.ok ())
  let options := appendOptions 0 lists.thumbs []
  let location ← forRange (categoryStep w ctx options) 0 ctx.categories location
  -- wildcard and feedback
  check (← call (.batchUpdate ctx.formId (closingRequests location options))
    (w.batchUpdate ctx.formId (closingRequests location options))) "Unable to update form: "
  pure ⟨rows, lists.thumbs, lists.links, options, location + 4⟩

/-- The function `main`. -/
def main (w : World) : Prog Locals := do
  let ctx ← setup w
  buildForm w ctx

/-! ## Reading a run -/

/-- The form items a run asked the Forms service to create, in order. -/
def createdItems (log : List Event) : List CreateItemRequest :=
  log.flatMap fun ev =>
    match ev.call with
    | .batchUpdate _ requests => requests
    | _ => []

/-- The calls `fetchImage` can make. -/
def IsFetchCall (c : Call) : Prop :=
  (∃ id, c = .filesGet id) ∨ (∃ id, c = .filesDownload id) ∨ c = .openFile "img" ∨ c = .copy

/-- The thumbnail link `fetchImage` returns for row `i` (empty when it stops). -/
def thumbOf (w : World) (i : Nat) (row : List String) : String :=
  match (fetchImage w i row).res with
  | .ok t => t
  | .error _ => ""

/-- The value of the local variable `url` in iteration `i` (the placeholder
when `rehost` stops). -/
def urlOf (w : World) (ctx : Context) (i : Nat) : String :=
  match (rehost w ctx i).res with
  | .ok u => u
  | .error _ => placeholderUrl

/-! ## A sample world -/

/-- An `upload` environment in which the image host answers `200 OK`. -/
def demoUploadOk : UploadEnv :=
  ⟨fun _ => .ok (), fun _ => .ok (), .ok (), .ok ⟨200, "200 OK", "BODY"⟩⟩

/-- An `upload` environment in which the image host answers `500`. -/
def demoUploadBad : UploadEnv :=
  ⟨fun _ => .ok (), fun _ => .ok (), .ok (), .ok ⟨500, "500 Internal Server Error", "oops"⟩⟩

/-- A world with two submissions and one category in which every call
succeeds, except that the image host rejects the second upload. -/
def demoWorld : World where
  args := ["contester", "Pikachu", "7", "Cutest"]
  atoi := fun _ => .ok 7
  loadDotenv := fun _ => .ok ()
  getenv := fun _ => "K"
  readFile := fun _ => .ok "cred"
  configFromJSON := fun _ => .ok ()
  osOpen := fun _ => .ok ()
  decodeToken := .ok ()
  scanAuthCode := .ok "code"
  exchange := fun _ => .ok ()
  openTokenFile := fun _ => .ok ()
  encodeToken := .ok ()
  newDriveService := .ok ()
  newSheetsService := .ok ()
  newFormsService := .ok ()
  filesList := fun _ => .ok [⟨"F", "n", "", ""⟩]
  spreadsheetsGet := fun _ => .ok ["Sheet1"]
  valuesGet := fun _ _ =>
    .ok [["ann", "x", "https://drive.google.com/open?id=A1"],
         ["bob", "y", "https://drive.google.com/open?id=B2"]]
  formsCreate := fun _ => .ok ()
  filesUpdate := fun _ _ => .ok ()
  batchUpdate := fun _ _ => .ok ()
  intn := fun _ => 0
  filesGet := fun _ id => .ok ⟨id, "", "", "thumb:" ++ id⟩
  filesDownload := fun _ _ => .ok ()
  openFile := fun _ => .ok ()
  copy := fun _ => .ok ()
  mustOpen := fun _ => .ok ()
  rangeOrder := fun _ v => v
  uploadEnv := fun i => if i = 0 then demoUploadOk else demoUploadBad
  getString := fun _ _ => .ok "https://host/u"

/-- The context `setup` reaches in `demoWorld`. -/
def demoContext : Context :=
  ⟨"Pikachu", 7, ["Cutest"], "K", "https://freeimage.host/api/1/upload?key=K&action=upload",
    [["ann", "x", "https://drive.google.com/open?id=A1"],
     ["bob", "y", "https://drive.google.com/open?id=B2"]], "F"⟩

/-- The local variables with which `main` returns in `demoWorld`. -/
def demoLocals : Locals :=
  ⟨[["bob", "y", "https://drive.google.com/open?id=B2"],
    ["ann", "x", "https://drive.google.com/open?id=A1"]],
   ["thumb:B2", "thumb:A1"],
   ["https://host/u", "https://picsum.photos/800"],
   [⟨"Option 1", "thumb:B2"⟩, ⟨"Option 2", "thumb:A1"⟩],
   12⟩

/-! ## The fail-fast policy -/

/-- The calls whose error `main` checks right after the call.  Left out are the
image upload, the reading of the cached token by `tokenFromFile` (`os.Open` and
`Decode`, whose error makes `getClient` ask for a new token), and the two calls
whose result is dropped (`Encode` in `saveToken`, `Forms.Create`). -/
def isChecked : Call → Bool
  | .osOpen _ => false
  | .decodeToken => false
  | .encodeToken => false
  | .formsCreate _ => false
  | .upload _ => false
  | _ => true

/-- No checked call of the list returned an error. -/
def Clean (l : List Event) : Prop :=
  ∀ ev ∈ l, isChecked ev.call = true → ev.err = none

/-- The stop that the error `e` of a checked call leads to: `log.Fatalf` with a
message ending in `e`, or (for `mustOpen`) a panic with `e`. -/
def StopFor (e : Err) (st : Stop) : Prop :=
  st = .panic e ∨ ∃ msg, st = .fatal (msg ++ e)

/-- A checked call that returns an error is the last call of the run, and the
run stops on that error. -/
def FailFast {α : Type} (p : Prog α) : Prop :=
  ∃ pre last, p.log = pre ++ last ∧ Clean pre ∧ last.length ≤ 1 ∧
    ∀ ev ∈ last, ∀ e, isChecked ev.call = true → ev.err = some e →
      ∃ st, p.res = .error st ∧ StopFor e st

/-- The world `demoWorld` without a readable `token.json`. -/
def tokenlessWorld : World :=
  { demoWorld with osOpen := fun _ => .error "open token.json: no such file or directory" }

/-- The world `demoWorld` in which the Sheets client cannot be built. -/
def brokenWorld : World :=
  { demoWorld with newSheetsService := .error "sheets: no transport" }

/-- The world `demoWorld` in which `Forms.Create` fails. -/
def formlessWorld : World :=
  { demoWorld with formsCreate := fun _ => .error "forms: permission denied" }

/-! # Theorems -/

/-! ## The shuffle -/

section Shuffle

variable {α : Type}

theorem swap_eq_some {xs : List α} {i j : Nat} (hi : i < xs.length) (hj : j < xs.length) :
    swap xs i j = some ((xs.set i xs[j]).set j xs[i]) := by
  simp [swap, List.getElem?_eq_getElem hi, List.getElem?_eq_getElem hj]

theorem swap_some_iff {xs ys : List α} {i j : Nat} :
    swap xs i j = some ys ↔
      ∃ (hi : i < xs.length) (hj : j < xs.length), ys = (xs.set i xs[j]).set j xs[i] := by
  constructor
  · intro h
    by_cases hi : i < xs.length
    · by_cases hj : j < xs.length
      · rw [swap_eq_some hi hj] at h
        exact ⟨hi, hj, (Option.some.inj h).symm⟩
      · simp [swap, List.getElem?_eq_none (Nat.le_of_not_lt hj)] at h
    · simp [swap, List.getElem?_eq_none (Nat.le_of_not_lt hi)] at h
  · rintro ⟨hi, hj, rfl⟩
    exact swap_eq_some hi hj

theorem set_set_perm {xs : List α} {i j : Nat} (hi : i < xs.length) (hj : j < xs.length) :
    ((xs.set i xs[j]).set j xs[i]).Perm xs := by
  classical
  rw [List.perm_iff_count]
  intro a
  have hj2 : j < (xs.set i xs[j]).length := by simpa using hj
  rw [List.count_set _ _ _ _ hj2, List.count_set _ _ _ _ hi]
  have pi : 0 < List.count xs[i] xs := List.count_pos_iff.2 (List.mem_iff_getElem.2 ⟨i, hi, rfl⟩)
  have pj : 0 < List.count xs[j] xs := List.count_pos_iff.2 (List.mem_iff_getElem.2 ⟨j, hj, rfl⟩)
  have h1 : (xs.set i xs[j])[j] = xs[j] := by
    by_cases hij : i = j
    · subst hij; simp
    · rw [List.getElem_set_ne hij]
  rw [h1]
  by_cases e1 : xs[i] = a <;> by_cases e2 : xs[j] = a
  · rw [e1] at pi
    simp only [e1, e2, beq_self_eq_true, if_true]
    omega
  · rw [e1] at pi
    have : (xs[j] == a) = false := by simpa using e2
    simp only [e1, this, beq_self_eq_true, if_true]
    omega
  · rw [e2] at pj
    have : (xs[i] == a) = false := by simpa using e1
    simp only [e2, this, beq_self_eq_true, if_true]
    simp
  · have h3 : (xs[i] == a) = false := by simpa using e1
    have h4 : (xs[j] == a) = false := by simpa using e2
    simp [h3, h4]

theorem swap_perm {xs ys : List α} {i j : Nat} (h : swap xs i j = some ys) : ys.Perm xs := by
  obtain ⟨hi, hj, rfl⟩ := swap_some_iff.1 h
  exact set_set_perm hi hj

theorem swap_length {xs ys : List α} {i j : Nat} (h : swap xs i j = some ys) :
    ys.length = xs.length := (swap_perm h).length_eq

theorem swap_getElem? {xs ys : List α} {i j : Nat} (h : swap xs i j = some ys) (m : Nat) :
    ys[m]? = if m = j then xs[i]? else if m = i then xs[j]? else xs[m]? := by
  obtain ⟨hi, hj, rfl⟩ := swap_some_iff.1 h
  simp only [List.getElem?_set, List.length_set]
  by_cases h1 : m = j
  · subst h1
    simp [hj, List.getElem?_eq_getElem hi]
  · have h1' : ¬ j = m := fun e => h1 e.symm
    by_cases h2 : m = i
    · subst h2
      simp [h1, h1', hi, List.getElem?_eq_getElem hj]
    · have h2' : ¬ i = m := fun e => h2 e.symm
      simp [h1, h1', h2, h2']

theorem swap_swap {xs ys : List α} {i j : Nat} (h : swap xs i j = some ys) :
    swap ys i j = some xs := by
  obtain ⟨hi, hj, _⟩ := swap_some_iff.1 h
  have hl := swap_length h
  obtain ⟨zs, hz⟩ : ∃ zs, swap ys i j = some zs :=
    ⟨_, swap_eq_some (by omega) (by omega)⟩
  rw [hz]
  congr 1
  apply List.ext_getElem?
  intro m
  rw [swap_getElem? hz]
  simp only [swap_getElem? h]
  by_cases h1 : m = j
  · subst h1
    by_cases h2 : i = m
    · subst h2; simp
    · simp [h2]
  · by_cases h2 : m = i
    · subst h2; simp [h1]
    · simp [h1, h2]

theorem shuffleSteps_congr {d d' : Nat → Nat} (xs : List α) :
    ∀ k, (∀ i, i < k → d i = d' i) → shuffleSteps d xs k = shuffleSteps d' xs k
  | 0, _ => rfl
  | k + 1, h => by
    simp only [shuffleSteps]
    rw [shuffleSteps_congr xs k (fun i hi => h i (by omega)), h k (by omega)]

theorem shuffleSteps_inv {d : Nat → Nat} (xs : List α) :
    ∀ k, k ≤ xs.length → ValidDraws k d →
      ∃ ys, shuffleSteps d xs k = some ys ∧ ys.Perm xs ∧ ∀ m, k ≤ m → ys[m]? = xs[m]?
  | 0, _, _ => ⟨xs, rfl, List.Perm.refl _, fun _ _ => rfl⟩
  | k + 1, hk, hd => by
    obtain ⟨ys, hys, hp, hfix⟩ :=
      shuffleSteps_inv xs k (by omega) (fun i hi => hd i (by omega))
    have hl : ys.length = xs.length := hp.length_eq
    have hj : d k ≤ k := hd k (by omega)
    have hs : swap ys k (d k) = some ((ys.set k ys[d k]).set (d k) ys[k]) :=
      swap_eq_some (by omega) (by omega)
    refine ⟨_, by simp [shuffleSteps, hys, hs], (swap_perm hs).trans hp, ?_⟩
    intro m hm
    rw [swap_getElem? hs, if_neg (by omega), if_neg (by omega)]
    exact hfix m (by omega)

theorem shuffleSteps_inj {d d' : Nat → Nat} (xs : List α) (hnd : xs.Nodup) :
    ∀ k, k ≤ xs.length → ValidDraws k d → ValidDraws k d' →
      shuffleSteps d xs k = shuffleSteps d' xs k → ∀ i, i < k → d i = d' i
  | 0, _, _, _, _ => fun i hi => absurd hi (Nat.not_lt_zero i)
  | k + 1, hk, hd, hd', heq => by
    obtain ⟨ys, hys, hp, hfix⟩ :=
      shuffleSteps_inv (d := d) xs k (by omega) (fun i hi => hd i (by omega))
    obtain ⟨ys', hys', hp', hfix'⟩ :=
      shuffleSteps_inv (d := d') xs k (by omega) (fun i hi => hd' i (by omega))
    obtain ⟨zs, hzs, hzp, _⟩ := shuffleSteps_inv (d := d) xs (k + 1) hk hd
    have hs : swap ys k (d k) = some zs := by
      simpa [shuffleSteps, hys] using hzs
    have hs' : swap ys' k (d' k) = some zs := by
      rw [heq] at hzs
      simpa [shuffleSteps, hys'] using hzs
    have hzl : zs.length = xs.length := hzp.length_eq
    have hj : d k ≤ k := hd k (by omega)
    have hj' : d' k ≤ k := hd' k (by omega)
    have e1 : zs[d k]? = xs[k]? := by
      rw [swap_getElem? hs, if_pos rfl]; exact hfix k (Nat.le_refl k)
    have e2 : zs[d' k]? = xs[k]? := by
      rw [swap_getElem? hs', if_pos rfl]; exact hfix' k (Nat.le_refl k)
    have hdk : d k = d' k := by
      have hz : zs.Nodup := hzp.nodup_iff.2 hnd
      have e3 : zs[d k]? = zs[d' k]? := e1.trans e2.symm
      rw [List.getElem?_eq_getElem (by omega), List.getElem?_eq_getElem (by omega)] at e3
      exact (hz.getElem_inj_iff).1 (Option.some.inj e3)
    have hyy : ys = ys' := by
      have a1 := swap_swap hs
      have a2 := swap_swap hs'
      rw [hdk] at a1
      exact Option.some.inj (a1.symm.trans a2)
    have ih := shuffleSteps_inj xs hnd k (by omega) (fun i hi => hd i (by omega))
      (fun i hi => hd' i (by omega)) (by rw [hys, hys', hyy])
    intro i hi
    by_cases hik : i = k
    · rw [hik]; exact hdk
    · exact ih i (by omega)

theorem shuffleSteps_surj (xs : List α) (hnd : xs.Nodup) :
    ∀ k, k ≤ xs.length → ∀ l : List α, l.Perm xs → (∀ m, k ≤ m → l[m]? = xs[m]?) →
      ∃ d, ValidDraws k d ∧ shuffleSteps d xs k = some l
  | 0, _, l, _, hfix => by
    have : l = xs := List.ext_getElem? fun m => hfix m (Nat.zero_le m)
    exact ⟨fun _ => 0, fun i hi => absurd hi (Nat.not_lt_zero i), by rw [this]; rfl⟩
  | k + 1, hk, l, hp, hfix => by
    have hl : l.length = xs.length := hp.length_eq
    have hmem : xs[k] ∈ l := hp.mem_iff.2 (List.getElem_mem (by omega))
    obtain ⟨j, hjl, hj⟩ := List.mem_iff_getElem.1 hmem
    have hjk : j ≤ k := by
      by_contra hc
      have e := hfix j (by omega)
      rw [List.getElem?_eq_getElem hjl, List.getElem?_eq_getElem (by omega), hj] at e
      have := (hnd.getElem_inj_iff).1 (Option.some.inj e)
      omega
    have hs : swap l k j = some ((l.set k l[j]).set j l[k]) := swap_eq_some (by omega) hjl
    obtain ⟨d, hd, hrun⟩ := shuffleSteps_surj xs hnd k (by omega) _ ((swap_perm hs).trans hp)
      (by
        intro m hm
        rw [swap_getElem? hs]
        by_cases h1 : m = j
        · have : j = k := by omega
          subst h1; subst this
          rw [if_pos rfl, List.getElem?_eq_getElem hjl, hj, List.getElem?_eq_getElem]
        · rw [if_neg h1]
          by_cases h2 : m = k
          · rw [if_pos h2, h2, List.getElem?_eq_getElem hjl, hj, List.getElem?_eq_getElem]
          · rw [if_neg h2]; exact hfix m (by omega))
    refine ⟨Function.update d k j, ?_, ?_⟩
    · intro i hi
      by_cases hik : i = k
      · subst hik; simpa using hjk
      · rw [Function.update_noteq hik]; exact hd i (by omega)
    · have hc : shuffleSteps (Function.update d k j) xs k = shuffleSteps d xs k :=
        shuffleSteps_congr xs k (fun i hi => Function.update_noteq (by omega) _ _)
      simp only [shuffleSteps, hc, hrun, Option.some_bind, Function.update_same]
      exact swap_swap hs

/-- C1: for every list of rows and every sequence of draws with `0 ≤ j_i ≤ i`,
the shuffle loop of `main` finishes and leaves a permutation of the input: the
same length and the same multiset of rows. -/
theorem shuffle_is_permutation (rows : List α) (draw : Nat → Nat)
    (h : ValidDraws rows.length draw) :
    ∃ ys, shuffle draw rows = some ys ∧ ys.Perm rows ∧ ys.length = rows.length ∧
      (ys : Multiset α) = (rows : Multiset α) := by
  obtain ⟨ys, hys, hp, _⟩ := shuffleSteps_inv (d := draw) rows rows.length (Nat.le_refl _) h
  exact ⟨ys, hys, hp, hp.length_eq, Multiset.coe_eq_coe.2 hp⟩

/-- C1 at the rows `[10, 20, 30]` with every draw `0`. -/
theorem shuffle_is_permutation_witness :
    ∃ ys, shuffle (fun _ => 0) [10, 20, 30] = some ys ∧ ys.Perm [10, 20, 30] ∧
      ys.length = [10, 20, 30].length ∧
      (ys : Multiset Nat) = (([10, 20, 30] : List Nat) : Multiset Nat) :=
  shuffle_is_permutation [10, 20, 30] (fun _ => 0) (fun i _ => Nat.zero_le i)

/-- C8: on pairwise-distinct rows the shuffle loop is a bijection from the
in-range draw sequences onto the `n!` orders of the rows: every in-range draw
sequence yields an order of the rows, two draw sequences that yield the same
order agree on `j_0 .. j_{n-1}`, and every order is yielded by some in-range
draw sequence; there are `n!` orders and `n!` in-range draw sequences, so
uniform draws give each order the same weight. -/
theorem shuffle_bijective (rows : List α) (hnd : rows.Nodup) :
    (∀ d, ValidDraws rows.length d → ∃ l, shuffle d rows = some l ∧ l.Perm rows) ∧
    (∀ d d', ValidDraws rows.length d → ValidDraws rows.length d' →
      shuffle d rows = shuffle d' rows → ∀ i, i < rows.length → d i = d' i) ∧
    (∀ l : List α, l.Perm rows → ∃ d, ValidDraws rows.length d ∧ shuffle d rows = some l) ∧
    (∀ l : List α, l ∈ rows.permutations ↔ l.Perm rows) ∧
    rows.permutations.Nodup ∧ rows.permutations.length = rows.length.factorial ∧
    Fintype.card ((i : Fin rows.length) → Fin (i.val + 1)) = rows.length.factorial := by
  have hcard : Fintype.card ((i : Fin rows.length) → Fin (i.val + 1)) =
      rows.length.factorial := by
    rw [Fintype.card_pi]
    simp only [Fintype.card_fin]
    rw [Fin.prod_univ_eq_prod_range (fun i => i + 1) rows.length,
      Finset.prod_range_add_one_eq_factorial]
  refine ⟨?_, ?_, ?_, fun l => List.mem_permutations, List.nodup_permutations rows hnd,
    List.length_permutations rows, hcard⟩
  · intro d hd
    obtain ⟨ys, hys, hp, _⟩ := shuffleSteps_inv (d := d) rows rows.length (Nat.le_refl _) hd
    exact ⟨ys, hys, hp⟩
  · intro d d' hd hd' heq
    exact shuffleSteps_inj rows hnd rows.length (Nat.le_refl _) hd hd' heq
  · intro l hp
    refine shuffleSteps_surj rows hnd rows.length (Nat.le_refl _) l hp ?_
    intro m hm
    rw [List.getElem?_eq_none (by rw [hp.length_eq]; exact hm), List.getElem?_eq_none hm]

/-- C8 at the rows `[10, 20, 30]`. -/
theorem shuffle_bijective_witness :
    ([10, 20, 30] : List Nat).Nodup ∧
    (∀ d, ValidDraws 3 d → ∃ l, shuffle d [10, 20, 30] = some l ∧ l.Perm [10, 20, 30]) ∧
    (∀ d d', ValidDraws 3 d → ValidDraws 3 d' →
      shuffle d [10, 20, 30] = shuffle d' [10, 20, 30] → ∀ i, i < 3 → d i = d' i) ∧
    (∀ l : List Nat, l.Perm [10, 20, 30] →
      ∃ d, ValidDraws 3 d ∧ shuffle d [10, 20, 30] = some l) :=
  ⟨by decide, (shuffle_bijective [10, 20, 30] (by decide)).1,
    (shuffle_bijective [10, 20, 30] (by decide)).2.1,
    (shuffle_bijective [10, 20, 30] (by decide)).2.2.1⟩

end Shuffle

/-! ## Running the script -/

section Run

@[simp] theorem bind_def {α β : Type} (m : Prog α) (f : α → Prog β) :
    (m >>= f) = Prog.bind m f := rfl

@[simp] theorem pure_def {α : Type} (a : α) : (pure a : Prog α) = ⟨[], .ok a⟩ := rfl

@[simp] theorem bind_mk_ok {α β : Type} (l : List Event) (a : α) (f : α → Prog β) :
    Prog.bind ⟨l, .ok a⟩ f = ⟨l ++ (f a).log, (f a).res⟩ := rfl

@[simp] theorem bind_mk_error {α β : Type} (l : List Event) (e : Stop) (f : α → Prog β) :
    Prog.bind ⟨l, .error e⟩ f = ⟨l, .error e⟩ := rfl

theorem bind_of_ok {α β : Type} {m : Prog α} {a : α} (f : α → Prog β) (h : m.res = .ok a) :
    Prog.bind m f = ⟨m.log ++ (f a).log, (f a).res⟩ := by
  unfold Prog.bind; rw [h]

theorem bind_of_error {α β : Type} {m : Prog α} {e : Stop} (f : α → Prog β)
    (h : m.res = .error e) : Prog.bind m f = ⟨m.log, .error e⟩ := by
  unfold Prog.bind; rw [h]

@[simp] theorem check_ok {α : Type} (a : α) (msg : String) :
    check (.ok a) msg = ⟨[], .ok a⟩ := rfl

@[simp] theorem check_error {α : Type} (e : Err) (msg : String) :
    (check (.error e) msg : Prog α) = ⟨[], .error (.fatal (msg ++ e))⟩ := rfl

@[simp] theorem call_def {α : Type} (c : Call) (r : Except Err α) :
    call c r = ⟨[⟨c, errOf r⟩], .ok r⟩ := rfl

@[simp] theorem errOf_ok {α : Type} (a : α) : errOf (.ok a : Except Err α) = none := rfl

@[simp] theorem errOf_error {α : Type} (e : Err) : errOf (.error e : Except Err α) = some e := rfl

theorem index_some {α : Type} {xs : List α} {i : Nat} {a : α} (h : xs[i]? = some a) :
    index xs i = ⟨[], .ok a⟩ := by
  unfold index; rw [h]; rfl

theorem index_none {α : Type} {xs : List α} {i : Nat} (h : xs[i]? = none) :
    index xs i = ⟨[], .error (.panic "index out of range")⟩ := by
  unfold index; rw [h]; rfl

/-! ### `rehost` by cases -/

theorem rehost_mustOpen_error {w : World} {ctx : Context} {i : Nat} {e : Err}
    (h : w.mustOpen i = .error e) :
    rehost w ctx i = ⟨[⟨.mustOpen "img", some e⟩], .error (.panic e)⟩ := by
  simp [rehost, h, panic]

theorem rehost_upload_error {w : World} {ctx : Context} {i : Nat} {e : Err}
    (h : w.mustOpen i = .ok ())
    (hu : (upload (w.uploadEnv i) ctx.posturl (uploadValues w ctx i)).2 = some e) :
    rehost w ctx i =
      ⟨[⟨.mustOpen "img", none⟩, ⟨.upload ctx.posturl, some e⟩], .ok placeholderUrl⟩ := by
  simp [rehost, h, hu]

theorem rehost_parse_ok {w : World} {ctx : Context} {i : Nat} {resp u : String}
    (h : w.mustOpen i = .ok ())
    (hu : upload (w.uploadEnv i) ctx.posturl (uploadValues w ctx i) = (resp, none))
    (hp : w.getString resp ["image", "url"] = .ok u) :
    rehost w ctx i =
      ⟨[⟨.mustOpen "img", none⟩, ⟨.upload ctx.posturl, none⟩,
        ⟨.getString resp ["image", "url"], none⟩], .ok u⟩ := by
  simp [rehost, h, hu, hp]

theorem rehost_parse_error {w : World} {ctx : Context} {i : Nat} {resp : String} {e : Err}
    (h : w.mustOpen i = .ok ())
    (hu : upload (w.uploadEnv i) ctx.posturl (uploadValues w ctx i) = (resp, none))
    (hp : w.getString resp ["image", "url"] = .error e) :
    rehost w ctx i =
      ⟨[⟨.mustOpen "img", none⟩, ⟨.upload ctx.posturl, none⟩,
        ⟨.getString resp ["image", "url"], some e⟩],
        .error (.fatal ("Unable to parse response: " ++ e))⟩ := by
  simp [rehost, h, hu, hp]

theorem fetchImage_cases (w : World) (i : Nat) (row : List String) :
    (∀ ev ∈ (fetchImage w i row).log, IsFetchCall ev.call) ∧
    (∀ t, (fetchImage w i row).res = .ok t →
      ∃ link fid img, row[2]? = some link ∧ fileIdOf link = some fid ∧
        w.filesGet i fid = .ok img ∧ t = img.thumbnailLink ∧
        (fetchImage w i row).log =
          [⟨.filesGet fid, none⟩, ⟨.filesDownload fid, none⟩, ⟨.openFile "img", none⟩,
           ⟨.copy, none⟩]) := by
  unfold fetchImage fileIdOf IsFetchCall
  cases h1 : row[2]? with
  | none => simp [index_none h1]
  | some link =>
    cases h2 : (stringsSplit link)[1]? with
    | none => simp [index_some h1, index_none h2]
    | some fid =>
      cases h3 : w.filesGet i fid with
      | error e => simp [index_some h1, index_some h2, h3]
      | ok img =>
        cases h4 : w.filesDownload i fid with
        | error e => simp [index_some h1, index_some h2, h3, h4]
        | ok u4 =>
          cases h5 : w.openFile i with
          | error e => simp [index_some h1, index_some h2, h3, h4, h5]
          | ok u5 =>
            cases h6 : w.copy i with
            | error e => simp [index_some h1, index_some h2, h3, h4, h5, h6]
            | ok u6 =>
              simp [index_some h1, index_some h2, h3, h4, h5, h6]
              exact ⟨fid, h2, img, h3, rfl, rfl⟩

theorem rehost_cases (w : World) (ctx : Context) (i : Nat) :
    (∃ e, w.mustOpen i = .error e ∧
      rehost w ctx i = ⟨[⟨.mustOpen "img", some e⟩], .error (.panic e)⟩) ∨
    (∃ e, (upload (w.uploadEnv i) ctx.posturl (uploadValues w ctx i)).2 = some e ∧
      rehost w ctx i =
        ⟨[⟨.mustOpen "img", none⟩, ⟨.upload ctx.posturl, some e⟩], .ok placeholderUrl⟩) ∨
    (∃ resp u, upload (w.uploadEnv i) ctx.posturl (uploadValues w ctx i) = (resp, none) ∧
      w.getString resp ["image", "url"] = .ok u ∧
      rehost w ctx i =
        ⟨[⟨.mustOpen "img", none⟩, ⟨.upload ctx.posturl, none⟩,
          ⟨.getString resp ["image", "url"], none⟩], .ok u⟩) ∨
    (∃ resp e, upload (w.uploadEnv i) ctx.posturl (uploadValues w ctx i) = (resp, none) ∧
      w.getString resp ["image", "url"] = .error e ∧
      rehost w ctx i =
        ⟨[⟨.mustOpen "img", none⟩, ⟨.upload ctx.posturl, none⟩,
          ⟨.getString resp ["image", "url"], some e⟩],
          .error (.fatal ("Unable to parse response: " ++ e))⟩) := by
  cases h : w.mustOpen i with
  | error e => exact Or.inl ⟨e, rfl, rehost_mustOpen_error h⟩
  | ok u =>
    cases hu : upload (w.uploadEnv i) ctx.posturl (uploadValues w ctx i) with
    | mk resp err =>
      cases err with
      | some e => exact Or.inr (Or.inl ⟨e, rfl, rehost_upload_error h (by rw [hu])⟩)
      | none =>
        cases hp : w.getString resp ["image", "url"] with
        | ok url => exact Or.inr (Or.inr (Or.inl ⟨resp, url, rfl, hp, rehost_parse_ok h hu hp⟩))
        | error e =>
          exact Or.inr (Or.inr (Or.inr ⟨resp, e, rfl, hp, rehost_parse_error h hu hp⟩))

theorem upload_not_mem_fetchImage (w : World) (i : Nat) (row : List String) (u : String)
    (x : Option Err) : (⟨.upload u, x⟩ : Event) ∉ (fetchImage w i row).log := by
  intro h
  have := (fetchImage_cases w i row).1 _ h
  simp [IsFetchCall] at this

/-- The step once `fetchImage` and `rehost` have succeeded. -/
theorem submissionStep_of_ok {w : World} {ctx : Context} {i : Nat} {row : List String}
    {s : Lists} {t url : String} {l : List Event}
    (hf : (fetchImage w i row).res = .ok t) (hr : rehost w ctx i = ⟨l, .ok url⟩) :
    submissionStep w ctx i row s =
      ⟨(fetchImage w i row).log ++ (l ++
          [⟨.batchUpdate ctx.formId (submissionRequests i url),
            errOf (w.batchUpdate ctx.formId (submissionRequests i url))⟩]),
        match w.batchUpdate ctx.formId (submissionRequests i url) with
        | .ok _ => .ok ⟨s.thumbs ++ [t], s.links ++ [url]⟩
        | .error e => .error (.fatal ("Unable to update form: " ++ e))⟩ := by
  unfold submissionStep
  simp only [bind_def]
  rw [bind_of_ok _ hf, hr]
  cases hb : w.batchUpdate ctx.formId (submissionRequests i url) <;> simp [hb]

theorem submissionStep_of_rehost_error {w : World} {ctx : Context} {i : Nat} {row : List String}
    {s : Lists} {t : String} {l : List Event} {st : Stop}
    (hf : (fetchImage w i row).res = .ok t) (hr : rehost w ctx i = ⟨l, .error st⟩) :
    submissionStep w ctx i row s = ⟨(fetchImage w i row).log ++ l, .error st⟩ := by
  unfold submissionStep
  simp only [bind_def]
  rw [bind_of_ok _ hf, hr]
  simp

theorem submissionStep_of_fetch_error {w : World} {ctx : Context} {i : Nat} {row : List String}
    {s : Lists} {st : Stop} (hf : (fetchImage w i row).res = .error st) :
    submissionStep w ctx i row s = ⟨(fetchImage w i row).log, .error st⟩ := by
  unfold submissionStep
  simp only [bind_def]
  rw [bind_of_error _ hf]

theorem upload_error_iff (e : UploadEnv) (url : String) (values : List (String × Reader)) :
    (∃ err, (upload e url values).2 = some err) ↔
      ((∃ err, writeFields e values = some err) ∨ (∃ err, e.newRequest = .error err) ∨
        (∃ err, e.doRequest = .error err) ∨
        (∃ res, e.doRequest = .ok res ∧ res.statusCode ≠ 200)) := by
  unfold upload
  cases h1 : writeFields e values with
  | some err => simp
  | none =>
    cases h2 : e.newRequest with
    | error err => simp
    | ok u =>
      cases h3 : e.doRequest with
      | error err => simp
      | ok res =>
        by_cases h4 : res.statusCode = 200 <;> simp [h4]

/-- C3: when the call to `upload` for a submission returns an error (which it
does exactly when a form field could not be written, the request could not be
built or sent, or the answer's status is not 200), the next call of the run is
the `BatchUpdate` creating the submission's two items, the image item carrying
the placeholder `https://picsum.photos/800`; the response is not parsed, and
when the iteration completes the placeholder is what was appended to `links`. -/
theorem upload_failure_uses_placeholder (w : World) (ctx : Context) (i : Nat)
    (row : List String) (s : Lists) (e : Err)
    (hcalled : (⟨.upload ctx.posturl, some e⟩ : Event) ∈ (submissionStep w ctx i row s).log) :
    (upload (w.uploadEnv i) ctx.posturl (uploadValues w ctx i)).2 = some e ∧
    ((∃ err, (upload (w.uploadEnv i) ctx.posturl (uploadValues w ctx i)).2 = some err) ↔
      ((∃ err, writeFields (w.uploadEnv i) (uploadValues w ctx i) = some err) ∨
        (∃ err, (w.uploadEnv i).newRequest = .error err) ∨
        (∃ err, (w.uploadEnv i).doRequest = .error err) ∨
        (∃ res, (w.uploadEnv i).doRequest = .ok res ∧ res.statusCode ≠ 200))) ∧
    (∃ pre, (submissionStep w ctx i row s).log = pre ++
      [⟨.upload ctx.posturl, some e⟩,
       ⟨.batchUpdate ctx.formId
          [⟨⟨"Option " ++ toString (i + 1), "", .pageBreakItem⟩, i * 2 + 2, []⟩,
           ⟨⟨"", "", .imageItem "https://picsum.photos/800"⟩, i * 2 + 3, []⟩],
         errOf (w.batchUpdate ctx.formId (submissionRequests i placeholderUrl))⟩]) ∧
    (∀ s1, (submissionStep w ctx i row s).res = .ok s1 →
      s1.links = s.links ++ ["https://picsum.photos/800"]) ∧
    (w.batchUpdate ctx.formId (submissionRequests i placeholderUrl) = .ok () →
      ∃ s1, (submissionStep w ctx i row s).res = .ok s1) := by
  have key : ∃ t, (fetchImage w i row).res = .ok t ∧
      (upload (w.uploadEnv i) ctx.posturl (uploadValues w ctx i)).2 = some e ∧
      rehost w ctx i =
        ⟨[⟨.mustOpen "img", none⟩, ⟨.upload ctx.posturl, some e⟩], .ok placeholderUrl⟩ := by
    cases hf : (fetchImage w i row).res with
    | error st =>
      rw [submissionStep_of_fetch_error hf] at hcalled
      exact absurd hcalled (upload_not_mem_fetchImage w i row _ _)
    | ok t =>
      rcases rehost_cases w ctx i with ⟨e1, _, hr⟩ | ⟨e1, hu, hr⟩ | ⟨resp, u, hu, hp, hr⟩ |
        ⟨resp, e1, hu, hp, hr⟩
      · rw [submissionStep_of_rehost_error hf hr] at hcalled
        simp [upload_not_mem_fetchImage] at hcalled
      · rw [submissionStep_of_ok hf hr] at hcalled
        simp [upload_not_mem_fetchImage] at hcalled
        subst hcalled
        exact ⟨t, rfl, hu, hr⟩
      · rw [submissionStep_of_ok hf hr] at hcalled
        simp [upload_not_mem_fetchImage] at hcalled
      · rw [submissionStep_of_rehost_error hf hr] at hcalled
        simp [upload_not_mem_fetchImage] at hcalled
  obtain ⟨t, hf, hu, hr⟩ := key
  refine ⟨hu, upload_error_iff _ _ _, ?_⟩
  rw [submissionStep_of_ok hf hr]
  refine ⟨⟨(fetchImage w i row).log ++ [⟨.mustOpen "img", none⟩], ?_⟩, ?_, ?_⟩
  · simp [submissionRequests, placeholderUrl]
  · intro s1 h1
    cases hb : w.batchUpdate ctx.formId (submissionRequests i placeholderUrl) with
    | ok u1 => rw [hb] at h1; simp at h1; rw [← h1]; rfl
    | error e1 => rw [hb] at h1; simp at h1
  · intro hb
    rw [hb]
    exact ⟨_, rfl⟩

/-- C9: when the call to `upload` for a submission returns no error, the
response is parsed with `jsonparser.GetString(resp, "image", "url")`: if that
yields the string `u`, the next call is the `BatchUpdate` whose image item
carries exactly `u`, and `u` is what a completed iteration appends to `links`;
if it yields an error the run ends there with `log.Fatalf` and no form item is
created.  In both cases the parse call follows the upload, so the placeholder
branch is not taken. -/
theorem upload_success_uses_parsed_url (w : World) (ctx : Context) (i : Nat)
    (row : List String) (s : Lists)
    (hcalled : (⟨.upload ctx.posturl, none⟩ : Event) ∈ (submissionStep w ctx i row s).log) :
    (upload (w.uploadEnv i) ctx.posturl (uploadValues w ctx i)).2 = none ∧
    (∀ u, w.getString (upload (w.uploadEnv i) ctx.posturl (uploadValues w ctx i)).1
        ["image", "url"] = .ok u →
      (∃ pre, (submissionStep w ctx i row s).log = pre ++
        [⟨.upload ctx.posturl, none⟩,
         ⟨.getString (upload (w.uploadEnv i) ctx.posturl (uploadValues w ctx i)).1
            ["image", "url"], none⟩,
         ⟨.batchUpdate ctx.formId
            [⟨⟨"Option " ++ toString (i + 1), "", .pageBreakItem⟩, i * 2 + 2, []⟩,
             ⟨⟨"", "", .imageItem u⟩, i * 2 + 3, []⟩],
           errOf (w.batchUpdate ctx.formId (submissionRequests i u))⟩]) ∧
      (∀ s1, (submissionStep w ctx i row s).res = .ok s1 → s1.links = s.links ++ [u]) ∧
      (w.batchUpdate ctx.formId (submissionRequests i u) = .ok () →
        ∃ s1, (submissionStep w ctx i row s).res = .ok s1)) ∧
    (∀ e, w.getString (upload (w.uploadEnv i) ctx.posturl (uploadValues w ctx i)).1
        ["image", "url"] = .error e →
      (∃ pre, (submissionStep w ctx i row s).log = pre ++
        [⟨.upload ctx.posturl, none⟩,
         ⟨.getString (upload (w.uploadEnv i) ctx.posturl (uploadValues w ctx i)).1
            ["image", "url"], some e⟩]) ∧
      (submissionStep w ctx i row s).res =
        .error (.fatal ("Unable to parse response: " ++ e))) := by
  have key : ∃ t, (fetchImage w i row).res = .ok t ∧ w.mustOpen i = .ok () ∧
      (upload (w.uploadEnv i) ctx.posturl (uploadValues w ctx i)).2 = none := by
    cases hf : (fetchImage w i row).res with
    | error st =>
      rw [submissionStep_of_fetch_error hf] at hcalled
      exact absurd hcalled (upload_not_mem_fetchImage w i row _ _)
    | ok t =>
      rcases rehost_cases w ctx i with ⟨e1, _, hr⟩ | ⟨e1, hu, hr⟩ | ⟨resp, u, hu, hp, hr⟩ |
        ⟨resp, e1, hu, hp, hr⟩
      · rw [submissionStep_of_rehost_error hf hr] at hcalled
        simp [upload_not_mem_fetchImage] at hcalled
      · rw [submissionStep_of_ok hf hr] at hcalled
        simp [upload_not_mem_fetchImage] at hcalled
      · cases hm : w.mustOpen i with
        | error e2 => rw [rehost_mustOpen_error hm] at hr; simp at hr
        | ok u2 => exact ⟨t, rfl, rfl, by rw [hu]⟩
      · cases hm : w.mustOpen i with
        | error e2 => rw [rehost_mustOpen_error hm] at hr; simp at hr
        | ok u2 => exact ⟨t, rfl, rfl, by rw [hu]⟩
  obtain ⟨t, hf, hm, hu⟩ := key
  have hu2 : upload (w.uploadEnv i) ctx.posturl (uploadValues w ctx i) =
      ((upload (w.uploadEnv i) ctx.posturl (uploadValues w ctx i)).1, none) := by
    rw [← hu]
  refine ⟨hu, ?_, ?_⟩
  · intro u hp
    rw [submissionStep_of_ok hf (rehost_parse_ok hm hu2 hp)]
    refine ⟨⟨(fetchImage w i row).log ++ [⟨.mustOpen "img", none⟩], ?_⟩, ?_, ?_⟩
    · simp [submissionRequests]
    · intro s1 h1
      cases hb : w.batchUpdate ctx.formId (submissionRequests i u) with
      | ok u1 => rw [hb] at h1; simp at h1; rw [← h1]
      | error e1 => rw [hb] at h1; simp at h1
    · intro hb
      rw [hb]
      exact ⟨_, rfl⟩
  · intro e hp
    rw [submissionStep_of_rehost_error hf (rehost_parse_error hm hu2 hp)]
    exact ⟨⟨(fetchImage w i row).log ++ [⟨.mustOpen "img", none⟩], by simp⟩, rfl⟩

/-- C3 in `demoWorld`, second submission: the image host answers `500`. -/
theorem upload_failure_uses_placeholder_witness :
    (⟨.upload demoContext.posturl, some "bad status: 500 Internal Server Error"⟩ : Event) ∈
      (submissionStep demoWorld demoContext 1
        ["ann", "x", "https://drive.google.com/open?id=A1"] ⟨["t"], ["l"]⟩).log ∧
    ∀ s1, (submissionStep demoWorld demoContext 1
        ["ann", "x", "https://drive.google.com/open?id=A1"] ⟨["t"], ["l"]⟩).res = .ok s1 →
      s1.links = ["l"] ++ ["https://picsum.photos/800"] :=
  ⟨by decide,
    (upload_failure_uses_placeholder demoWorld demoContext 1
      ["ann", "x", "https://drive.google.com/open?id=A1"] ⟨["t"], ["l"]⟩
      "bad status: 500 Internal Server Error" (by decide)).2.2.2.1⟩

/-- C9 in `demoWorld`, first submission: the image host answers `200 OK`. -/
theorem upload_success_uses_parsed_url_witness :
    (⟨.upload demoContext.posturl, none⟩ : Event) ∈
      (submissionStep demoWorld demoContext 0
        ["bob", "y", "https://drive.google.com/open?id=B2"] ⟨[], []⟩).log ∧
    (upload (demoWorld.uploadEnv 0) demoContext.posturl
      (uploadValues demoWorld demoContext 0)).2 = none :=
  ⟨by decide,
    (upload_success_uses_parsed_url demoWorld demoContext 0
      ["bob", "y", "https://drive.google.com/open?id=B2"] ⟨[], []⟩ (by decide)).1⟩

/-! ### The file id -/

theorem splitChars_of_not_mem (sep : Char) :
    ∀ cs : List Char, sep ∉ cs → splitChars sep cs = [cs]
  | [], _ => rfl
  | c :: cs, h => by
    have hc : c ≠ sep := fun e => h (by simp [e])
    have ih := splitChars_of_not_mem sep cs (fun m => h (List.mem_cons_of_mem _ m))
    simp [splitChars, hc, ih]

theorem splitChars_append (sep : Char) (rest : List Char) :
    ∀ p : List Char, sep ∉ p → splitChars sep (p ++ sep :: rest) = p :: splitChars sep rest
  | [], _ => by simp [splitChars]
  | c :: p, h => by
    have hc : c ≠ sep := fun e => h (by simp [e])
    have ih := splitChars_append sep rest p (fun m => h (List.mem_cons_of_mem _ m))
    simp [splitChars, hc, ih]

theorem splitChars_head (sep : Char) :
    ∀ cs : List Char, ∃ tl, splitChars sep cs = cs.takeWhile (fun c => c != sep) :: tl
  | [] => ⟨[], rfl⟩
  | c :: cs => by
    obtain ⟨tl, ih⟩ := splitChars_head sep cs
    by_cases hc : c = sep
    · exact ⟨splitChars sep cs, by simp [splitChars, hc]⟩
    · exact ⟨tl, by simp [splitChars, hc, ih]⟩

theorem fileIdOf_of_eq (p id : String) (hp : '=' ∉ p.data) :
    fileIdOf (p ++ "=" ++ id) = some ⟨id.data.takeWhile (fun c => c != '=')⟩ := by
  obtain ⟨tl, h⟩ := splitChars_head '=' id.data
  have hd : (p ++ "=" ++ id).data = p.data ++ '=' :: id.data := by
    simp [String.data_append]
  simp [fileIdOf, stringsSplit, hd, splitChars_append '=' id.data p.data hp, h]

theorem fileIdOf_of_not_mem (link : String) (h : '=' ∉ link.data) : fileIdOf link = none := by
  simp [fileIdOf, stringsSplit, splitChars_of_not_mem '=' link.data h]


theorem submissionStep_log_fetch (w : World) (ctx : Context) (i : Nat) (row : List String)
    (s : Lists) :
    ∃ tl, (submissionStep w ctx i row s).log = (fetchImage w i row).log ++ tl := by
  cases hf : (fetchImage w i row).res with
  | error st => exact ⟨[], by rw [submissionStep_of_fetch_error hf]; simp⟩
  | ok t =>
    cases hr : rehost w ctx i with
    | mk l res =>
      cases res with
      | error st => exact ⟨l, by rw [submissionStep_of_rehost_error hf hr]⟩
      | ok url => exact ⟨_, by rw [submissionStep_of_ok hf hr]⟩

theorem fetchImage_of_fileId {w : World} {i : Nat} {row : List String} {link fid : String}
    (hrow : row[2]? = some link) (hid : fileIdOf link = some fid) :
    (∃ tl, (fetchImage w i row).log = ⟨.filesGet fid, errOf (w.filesGet i fid)⟩ :: tl) ∧
    (∀ img, w.filesGet i fid = .ok img →
      ∃ tl, (fetchImage w i row).log = ⟨.filesGet fid, none⟩ ::
        ⟨.filesDownload fid, errOf (w.filesDownload i fid)⟩ :: tl) := by
  unfold fileIdOf at hid
  unfold fetchImage
  cases h3 : w.filesGet i fid with
  | error e => simp [index_some hrow, index_some hid, h3]
  | ok img =>
    cases h4 : w.filesDownload i fid with
    | error e => simp [index_some hrow, index_some hid, h3, h4]
    | ok u4 => simp [index_some hrow, index_some hid, h3, h4]

theorem fetchImage_of_no_fileId {w : World} {i : Nat} {row : List String} {link : String}
    (hrow : row[2]? = some link) (hid : fileIdOf link = none) :
    fetchImage w i row = ⟨[], .error (.panic "index out of range")⟩ := by
  unfold fileIdOf at hid
  unfold fetchImage
  simp [index_some hrow, index_none hid]

/-- C10: the Drive file id of a submission link.  For a link `p ++ "=" ++ id`
with no `=` in `p`, `strings.Split(link, "=")[1]` is the part of `id` before
its first `=` (all of `id` when it has none); the iteration starts with the
metadata request for that id and, when that succeeds, goes on with the download
of the same id.  For a link without `=` the index is out of range: the
iteration panics before making any call. -/
theorem fileId_extraction (w : World) (ctx : Context) (i : Nat) (row : List String)
    (s : Lists) (link : String) (hrow : row[2]? = some link) :
    (∀ p id : String, '=' ∉ p.data → link = p ++ "=" ++ id →
      fileIdOf link = some ⟨id.data.takeWhile (fun c => c != '=')⟩ ∧
      ('=' ∉ id.data → fileIdOf link = some id) ∧
      (∃ tl, (submissionStep w ctx i row s).log =
        ⟨.filesGet ⟨id.data.takeWhile (fun c => c != '=')⟩,
          errOf (w.filesGet i ⟨id.data.takeWhile (fun c => c != '=')⟩)⟩ :: tl) ∧
      (∀ img, w.filesGet i ⟨id.data.takeWhile (fun c => c != '=')⟩ = .ok img →
        ∃ tl, (submissionStep w ctx i row s).log =
          ⟨.filesGet ⟨id.data.takeWhile (fun c => c != '=')⟩, none⟩ ::
          ⟨.filesDownload ⟨id.data.takeWhile (fun c => c != '=')⟩,
            errOf (w.filesDownload i ⟨id.data.takeWhile (fun c => c != '=')⟩)⟩ :: tl)) ∧
    ('=' ∉ link.data →
      fileIdOf link = none ∧
      submissionStep w ctx i row s = ⟨[], .error (.panic "index out of range")⟩) := by
  obtain ⟨tl0, h0⟩ := submissionStep_log_fetch w ctx i row s
  constructor
  · intro p id hp hl
    have hid : fileIdOf link = some ⟨id.data.takeWhile (fun c => c != '=')⟩ := by
      rw [hl]; exact fileIdOf_of_eq p id hp
    obtain ⟨⟨tl1, h1⟩, h2⟩ := fetchImage_of_fileId (w := w) (i := i) hrow hid
    refine ⟨hid, ?_, ⟨tl1 ++ tl0, by rw [h0, h1]; rfl⟩, ?_⟩
    · intro hn
      rw [hid]
      congr 1
      have : id.data.takeWhile (fun c => c != '=') = id.data := by
        rw [List.takeWhile_eq_self_iff]
        intro c hc
        have : c ≠ '=' := fun e => hn (e ▸ hc)
        simpa using this
      rw [this]
    · intro img hg
      obtain ⟨tl2, h3⟩ := h2 img hg
      exact ⟨tl2 ++ tl0, by rw [h0, h3]; rfl⟩
  · intro hn
    have hid := fileIdOf_of_not_mem link hn
    have hf := fetchImage_of_no_fileId (w := w) (i := i) hrow hid
    refine ⟨hid, ?_⟩
    have hres : (fetchImage w i row).res = .error (.panic "index out of range") := by rw [hf]
    rw [submissionStep_of_fetch_error hres, hf]

/-- C10 at the row `["ann", "x", "https://drive.google.com/open?id=A1"]` of
`demoWorld`. -/
theorem fileId_extraction_witness :
    (["ann", "x", "https://drive.google.com/open?id=A1"] : List String)[2]? =
      some "https://drive.google.com/open?id=A1" ∧
    fileIdOf "https://drive.google.com/open?id=A1" = some "A1" :=
  ⟨by decide,
    ((fileId_extraction demoWorld demoContext 0
      ["ann", "x", "https://drive.google.com/open?id=A1"] ⟨[], []⟩
      "https://drive.google.com/open?id=A1" (by decide)).1
      "https://drive.google.com/open?id" "A1" (by decide) (by decide)).1⟩

/-! ### The items a run creates -/

@[simp] theorem createdItems_nil : createdItems [] = [] := rfl

@[simp] theorem createdItems_append (l1 l2 : List Event) :
    createdItems (l1 ++ l2) = createdItems l1 ++ createdItems l2 := by
  simp [createdItems]

@[simp] theorem createdItems_cons (c : Call) (e : Option Err) (l : List Event) :
    createdItems (⟨c, e⟩ :: l) =
      (match c with
        | .batchUpdate _ requests => requests
        | _ => []) ++ createdItems l := by
  simp [createdItems]

theorem createdItems_fetchImage (w : World) (i : Nat) (row : List String) :
    createdItems (fetchImage w i row).log = [] := by
  have h := (fetchImage_cases w i row).1
  generalize (fetchImage w i row).log = l at h
  induction l with
  | nil => rfl
  | cons ev l ih =>
    have h1 := h ev (List.mem_cons_self _ _)
    have h2 := ih (fun e he => h e (List.mem_cons_of_mem _ he))
    obtain ⟨c, e⟩ := ev
    rw [createdItems_cons, h2]
    rcases h1 with ⟨id, h1⟩ | ⟨id, h1⟩ | h1 | h1 <;> simp at h1 <;> subst h1 <;> rfl

theorem createdItems_rehost (w : World) (ctx : Context) (i : Nat) :
    createdItems (rehost w ctx i).log = [] := by
  rcases rehost_cases w ctx i with ⟨e1, _, hr⟩ | ⟨e1, hu, hr⟩ | ⟨resp, u, hu, hp, hr⟩ |
    ⟨resp, e1, hu, hp, hr⟩ <;> rw [hr] <;> simp

/-- One completed iteration of the submission loop. -/
theorem submissionStep_ok {w : World} {ctx : Context} {i : Nat} {row : List String}
    {s s1 : Lists} (h : (submissionStep w ctx i row s).res = .ok s1) :
    (fetchImage w i row).res = .ok (thumbOf w i row) ∧
    (rehost w ctx i).res = .ok (urlOf w ctx i) ∧
    s1 = ⟨s.thumbs ++ [thumbOf w i row], s.links ++ [urlOf w ctx i]⟩ ∧
    createdItems (submissionStep w ctx i row s).log = submissionRequests i (urlOf w ctx i) := by
  cases hf : (fetchImage w i row).res with
  | error st => rw [submissionStep_of_fetch_error hf] at h; simp at h
  | ok t =>
    cases hr : rehost w ctx i with
    | mk l res =>
      cases res with
      | error st => rw [submissionStep_of_rehost_error hf hr] at h; simp at h
      | ok url =>
        have hl : createdItems l = [] := by
          have := createdItems_rehost w ctx i
          rwa [hr] at this
        rw [submissionStep_of_ok hf hr] at h ⊢
        have ht : thumbOf w i row = t := by simp [thumbOf, hf]
        have hu : urlOf w ctx i = url := by simp [urlOf, hr]
        rw [ht, hu]
        refine ⟨rfl, rfl, ?_, ?_⟩
        · cases hb : w.batchUpdate ctx.formId (submissionRequests i url) with
          | ok u1 => rw [hb] at h; simp at h; exact h.symm
          | error e1 => rw [hb] at h; simp at h
        · simp [createdItems_fetchImage, hl]

theorem forRange_cons {α σ : Type} (body : Nat → α → σ → Prog σ) (i : Nat) (x : α)
    (xs : List α) (s : σ) :
    forRange body i (x :: xs) s = Prog.bind (body i x s) (forRange body (i + 1) xs) := rfl

/-- The completed submission loop. -/
theorem submissionLoop_ok (w : World) (ctx : Context) :
    ∀ (rows : List (List String)) (i : Nat) (s s1 : Lists),
      (forRange (submissionStep w ctx) i rows s).res = .ok s1 →
      s1.thumbs = s.thumbs ++ (rows.enumFrom i).map (fun p => thumbOf w p.1 p.2) ∧
      s1.links = s.links ++ (rows.enumFrom i).map (fun p => urlOf w ctx p.1) ∧
      createdItems (forRange (submissionStep w ctx) i rows s).log =
        (rows.enumFrom i).flatMap (fun p => submissionRequests p.1 (urlOf w ctx p.1)) ∧
      ∀ p ∈ rows.enumFrom i, (fetchImage w p.1 p.2).res = .ok (thumbOf w p.1 p.2) ∧
        (rehost w ctx p.1).res = .ok (urlOf w ctx p.1)
  | [], i, s, s1, h => by
    simp [forRange] at h
    subst h
    simp [forRange]
  | row :: rows, i, s, s1, h => by
    rw [forRange_cons] at h ⊢
    cases hs : (submissionStep w ctx i row s).res with
    | error st => rw [bind_of_error _ hs] at h; simp at h
    | ok s2 =>
      rw [bind_of_ok _ hs] at h ⊢
      obtain ⟨hf, hr, h2, hitems⟩ := submissionStep_ok hs
      obtain ⟨a1, a2, a3, a4⟩ := submissionLoop_ok w ctx rows (i + 1) s2 s1 h
      subst h2
      refine ⟨by simp [a1], by simp [a2], by simp [hitems, a3], ?_⟩
      intro p hp
      simp only [List.enumFrom_cons, List.mem_cons] at hp
      rcases hp with rfl | hp
      · exact ⟨hf, hr⟩
      · exact a4 p hp

/-- The completed category loop. -/
theorem categoryLoop_ok (w : World) (ctx : Context) (opts : List FormOption) :
    ∀ (cats : List String) (k loc loc1 : Nat),
      (forRange (categoryStep w ctx opts) k cats loc).res = .ok loc1 →
      loc1 = loc + 2 * cats.length ∧
      createdItems (forRange (categoryStep w ctx opts) k cats loc).log =
        cats.enum.flatMap (fun p => categoryRequests p.2 (loc + 2 * p.1) opts)
  | [], k, loc, loc1, h => by
    simp [forRange] at h
    subst h
    simp [forRange]
  | cat :: cats, k, loc, loc1, h => by
    rw [forRange_cons] at h ⊢
    have hstep : categoryStep w ctx opts k cat loc =
        ⟨[⟨.batchUpdate ctx.formId (categoryRequests cat loc opts),
            errOf (w.batchUpdate ctx.formId (categoryRequests cat loc opts))⟩],
          match w.batchUpdate ctx.formId (categoryRequests cat loc opts) with
          | .ok _ => .ok (loc + 2)
          | .error e => .error (.fatal ("Unable to update form: " ++ e))⟩ := by
      unfold categoryStep
      cases hb : w.batchUpdate ctx.formId (categoryRequests cat loc opts) <;> simp [hb]
    cases hb : w.batchUpdate ctx.formId (categoryRequests cat loc opts) with
    | error e => rw [hstep, hb] at h; simp at h
    | ok u =>
      rw [hstep, hb] at h ⊢
      simp only [bind_mk_ok] at h ⊢
      obtain ⟨a1, a2⟩ := categoryLoop_ok w ctx opts cats (k + 1) (loc + 2) loc1 h
      refine ⟨by rw [a1, List.length_cons]; omega, ?_⟩
      rw [createdItems_append, a2, List.enum_cons, ← List.map_fst_add_enum_eq_enumFrom]
      simp [List.flatMap_map, Function.comp_def, Nat.mul_add, Nat.add_assoc]
      congr 1
      funext p
      congr 1
      omega

theorem appendOptions_eq :
    ∀ (thumbs : List String) (i : Nat) (acc : List FormOption),
      appendOptions i thumbs acc =
        acc ++ (thumbs.enumFrom i).map (fun p => ⟨"Option " ++ toString (p.1 + 1), p.2⟩)
  | [], i, acc => by simp [appendOptions]
  | t :: thumbs, i, acc => by
    simp [appendOptions, appendOptions_eq thumbs (i + 1)]

/-- A completed run of `buildForm`: the final local variables and the items
created, in order. -/
theorem buildForm_ok {w : World} {ctx : Context} {l : Locals}
    (h : (buildForm w ctx).res = .ok l) :
    shuffle w.intn ctx.rows = some l.rows ∧
    l.thumbs = l.rows.enum.map (fun p => thumbOf w p.1 p.2) ∧
    l.links = l.rows.enum.map (fun p => urlOf w ctx p.1) ∧
    l.options = l.thumbs.enum.map (fun p => ⟨"Option " ++ toString (p.1 + 1), p.2⟩) ∧
    l.location = l.rows.length * 2 + 2 + 2 * ctx.categories.length + 4 ∧
    createdItems (buildForm w ctx).log =
      introRequests ++
      l.rows.enum.flatMap (fun p => submissionRequests p.1 (urlOf w ctx p.1)) ++
      ctx.categories.enum.flatMap
        (fun p => categoryRequests p.2 (l.rows.length * 2 + 2 + 2 * p.1) l.options) ++
      closingRequests (l.rows.length * 2 + 2 + 2 * ctx.categories.length) l.options ∧
    ∀ p ∈ l.rows.enum, (fetchImage w p.1 p.2).res = .ok (thumbOf w p.1 p.2) ∧
      (rehost w ctx p.1).res = .ok (urlOf w ctx p.1) := by
  unfold buildForm randomize at h ⊢
  simp only [bind_def, call_def, bind_mk_ok] at h ⊢
  cases hb : w.batchUpdate ctx.formId introRequests with
  | error e => simp [hb] at h
  | ok u =>
    simp only [hb, check_ok, bind_mk_ok] at h ⊢
    cases hs : shuffle w.intn ctx.rows with
    | none => simp [hs, panic] at h
    | some rows =>
      simp only [hs, pure_def, bind_mk_ok] at h ⊢
      cases hl : (forRange (submissionStep w ctx) 0 rows ⟨[], []⟩).res with
      | error st => rw [bind_of_error _ hl] at h; simp at h
      | ok lists =>
        rw [bind_of_ok _ hl] at h ⊢
        obtain ⟨a1, a2, a3, a4⟩ := submissionLoop_ok w ctx rows 0 _ _ hl
        simp only [bind_mk_ok] at h ⊢
        cases hc : (forRange (categoryStep w ctx (appendOptions 0 lists.thumbs [])) 0
            ctx.categories (rows.length * 2 + 2)).res with
        | error st => rw [bind_of_error _ hc] at h; simp at h
        | ok loc =>
          rw [bind_of_ok _ hc] at h ⊢
          obtain ⟨c1, c2⟩ := categoryLoop_ok w ctx _ _ _ _ _ hc
          cases hz : w.batchUpdate ctx.formId
              (closingRequests loc (appendOptions 0 lists.thumbs [])) with
          | error e => simp [hz] at h
          | ok u2 =>
            simp only [hz, check_ok, bind_mk_ok, Except.ok.injEq] at h
            subst h
            simp only [List.nil_append] at a1 a2
            refine ⟨rfl, a1, a2, ?_, ?_, ?_, a4⟩
            · simp [appendOptions_eq, List.enum]
            · simp only [c1]
            · simp [a3, c2, c1, List.enum]

/-! ### `setup` -/

theorem res_bind_ok {α β : Type} {m : Prog α} {f : α → Prog β} {b : β}
    (h : (Prog.bind m f).res = .ok b) : ∃ a, m.res = .ok a ∧ (f a).res = .ok b := by
  cases hm : m.res with
  | error st => rw [bind_of_error _ hm] at h; simp at h
  | ok a => rw [bind_of_ok _ hm] at h; exact ⟨a, rfl, h⟩

theorem post_bind {α β : Type} {m : Prog α} {f : α → Prog β} {P : β → Prop}
    (h : ∀ a b, (f a).res = .ok b → P b) : ∀ b, (m >>= f).res = .ok b → P b := by
  intro b hb
  obtain ⟨a, _, ha⟩ := res_bind_ok hb
  exact h a b ha

theorem quiet_bind {α β : Type} {m : Prog α} {f : α → Prog β}
    (hm : createdItems m.log = []) (hf : ∀ a, createdItems (f a).log = []) :
    createdItems (m >>= f).log = [] := by
  cases h : m.res with
  | error st => rw [bind_def, bind_of_error _ h]; exact hm
  | ok a => rw [bind_def, bind_of_ok _ h]; simp [hm, hf a]

theorem quiet_index {α : Type} (xs : List α) (i : Nat) : createdItems (index xs i).log = [] := by
  unfold index; split <;> rfl

theorem quiet_check {α : Type} (r : Except Err α) (msg : String) :
    createdItems (check r msg).log = [] := by
  cases r <;> rfl

theorem setup_categories (w : World) :
    ∀ ctx, (setup w).res = .ok ctx → ctx.categories = w.args.drop 3 := by
  unfold setup
  repeat (with_reducible refine post_bind fun _ => ?_)
  intro b hb
  simp at hb
  rw [← hb]

theorem quiet_printRows (rows : List (List String)) :
    ∀ i : Nat, createdItems (forRange printRow i rows ()).log = [] := by
  induction rows with
  | nil => intro i; rfl
  | cons row rows ih =>
    intro i
    rw [forRange_cons, ← bind_def]
    refine quiet_bind ?_ fun _ => ih _
    unfold printRow
    repeat (first
      | with_reducible exact quiet_index _ _
      | with_reducible refine quiet_bind ?_ fun _ => ?_
      | with_reducible rfl
      | simp)

theorem quiet_getClient (w : World) : createdItems (getClient w).log = [] := by
  unfold getClient tokenFromFile getTokenFromWeb saveToken
  cases h1 : w.osOpen "token.json" with
  | ok u =>
    cases h2 : w.decodeToken with
    | ok u2 => simp [h1, h2]
    | error e =>
      cases h3 : w.scanAuthCode with
      | error e3 => simp [h1, h2, h3]
      | ok code =>
        cases h4 : w.exchange code with
        | error e4 => simp [h1, h2, h3, h4]
        | ok u4 =>
          cases h5 : w.openTokenFile "token.json" <;> simp [h1, h2, h3, h4, h5]
  | error e =>
      cases h3 : w.scanAuthCode with
      | error e3 => simp [h1, h3]
      | ok code =>
        cases h4 : w.exchange code with
        | error e4 => simp [h1, h3, h4]
        | ok u4 =>
          cases h5 : w.openTokenFile "token.json" <;> simp [h1, h3, h4, h5]

theorem quiet_setup (w : World) : createdItems (setup w).log = [] := by
  unfold setup
  repeat (first
    | with_reducible exact quiet_getClient _
    | with_reducible exact quiet_printRows _ _
    | with_reducible exact quiet_index _ _
    | with_reducible exact quiet_check _ _
    | with_reducible refine quiet_bind ?_ fun _ => ?_
    | with_reducible rfl
    | simp)

/-- In `demoWorld`, `setup` completes with `demoContext`. -/
theorem setup_demoWorld : (setup demoWorld).res = .ok demoContext := rfl

/-- A completed run of `main`: `setup` completed, then `buildForm` did. -/
theorem main_ok {w : World} {l : Locals} (h : (main w).res = .ok l) :
    ∃ ctx, (setup w).res = .ok ctx ∧ ctx.categories = w.args.drop 3 ∧
      (buildForm w ctx).res = .ok l ∧
      createdItems (main w).log = createdItems (buildForm w ctx).log := by
  unfold main at h ⊢
  simp only [bind_def] at h ⊢
  obtain ⟨ctx, h1, h2⟩ := res_bind_ok h
  refine ⟨ctx, h1, setup_categories w ctx h1, h2, ?_⟩
  rw [bind_of_ok _ h1]
  simp [quiet_setup]

/-! ### Item placement -/

theorem range'_glue (a m b n : Nat) (h : b = a + m) :
    List.range' a m ++ List.range' b n = List.range' a (m + n) := by
  subst h
  rw [List.range'_append_1, Nat.add_comm]

theorem map_index_submissions (u : Nat → String) :
    ∀ (rows : List (List String)) (k : Nat),
      ((rows.enumFrom k).flatMap (fun p => submissionRequests p.1 (u p.1))).map (·.index) =
        List.range' (k * 2 + 2) (2 * rows.length)
  | [], k => by simp
  | row :: rows, k => by
    have ih := map_index_submissions u rows (k + 1)
    have e : 2 * (row :: rows).length = 2 * rows.length + 1 + 1 := by
      rw [List.length_cons]; omega
    rw [e, List.range'_succ, List.range'_succ, List.enumFrom_cons, List.flatMap_cons,
      List.map_append, ih]
    have e2 : (k + 1) * 2 + 2 = k * 2 + 2 + 1 + 1 := by omega
    rw [e2]
    rfl

theorem map_index_categories (opts : List FormOption) (loc : Nat) :
    ∀ (cats : List String) (k : Nat),
      ((cats.enumFrom k).flatMap (fun p => categoryRequests p.2 (loc + 2 * p.1) opts)).map
        (·.index) = List.range' (loc + 2 * k) (2 * cats.length)
  | [], k => by simp
  | cat :: cats, k => by
    have ih := map_index_categories opts loc cats (k + 1)
    have e : 2 * (cat :: cats).length = 2 * cats.length + 1 + 1 := by
      rw [List.length_cons]; omega
    rw [e, List.range'_succ, List.range'_succ, List.enumFrom_cons, List.flatMap_cons,
      List.map_append, ih]
    have e2 : loc + 2 * (k + 1) = loc + 2 * k + 1 + 1 := by omega
    rw [e2]
    rfl

/-- C2: in a run of `main` that completes, with `n` submissions and `c`
categories, the `Location.Index` values of the created items, in creation
order, are exactly `0, 1, ..., 2n + 2c + 5`: strictly increasing and without
repetition. -/
theorem item_indices_sequential (w : World) (l : Locals) (h : (main w).res = .ok l) :
    (createdItems (main w).log).map (·.index) =
      List.range (2 * l.rows.length + 2 * (w.args.drop 3).length + 6) ∧
    ((createdItems (main w).log).map (·.index)).Pairwise (· < ·) ∧
    ((createdItems (main w).log).map (·.index)).Nodup := by
  obtain ⟨ctx, _, hcat, hb, hitems⟩ := main_ok h
  obtain ⟨_, _, _, _, _, hlist, _⟩ := buildForm_ok hb
  have key : (createdItems (main w).log).map (·.index) =
      List.range (2 * l.rows.length + 2 * (w.args.drop 3).length + 6) := by
    rw [hitems, hlist, ← hcat, List.map_append, List.map_append, List.map_append, List.enum,
      List.enum, map_index_submissions, map_index_categories, List.range_eq_range']
    have e1 : List.map (·.index) introRequests = List.range' 0 2 := rfl
    have e2 : ∀ loc opts, List.map (·.index) (closingRequests loc opts) = List.range' loc 4 :=
      fun _ _ => rfl
    rw [e1, e2]
    rw [range'_glue 0 2 _ _ (by omega), range'_glue 0 _ _ _ (by omega),
      range'_glue 0 _ _ _ (by omega)]
    congr 1
    omega
  rw [key]
  exact ⟨rfl, List.pairwise_lt_range _, List.nodup_range _⟩

/-- C2 in `demoWorld`: two submissions and one category give the indices
`0 .. 11`. -/
theorem item_indices_sequential_witness :
    (main demoWorld).res = .ok demoLocals ∧
    (createdItems (main demoWorld).log).map (·.index) = List.range 12 :=
  ⟨rfl, (item_indices_sequential demoWorld demoLocals rfl).1⟩

/-! ### Which item sits where -/

theorem getElem?_submissions (u : Nat → String) :
    ∀ (rows : List (List String)) (k i : Nat), i < rows.length →
      ((rows.enumFrom k).flatMap (fun p => submissionRequests p.1 (u p.1)))[2 * i]? =
        some ⟨⟨"Option " ++ toString (k + i + 1), "", .pageBreakItem⟩, (k + i) * 2 + 2, []⟩ ∧
      ((rows.enumFrom k).flatMap (fun p => submissionRequests p.1 (u p.1)))[2 * i + 1]? =
        some ⟨⟨"", "", .imageItem (u (k + i))⟩, (k + i) * 2 + 3, []⟩
  | [], _, i, h => absurd h (Nat.not_lt_zero i)
  | row :: rows, k, 0, _ => by
    simp [submissionRequests]
  | row :: rows, k, i + 1, h => by
    have ih := getElem?_submissions u rows (k + 1) i (Nat.lt_of_succ_lt_succ h)
    have e1 : 2 * (i + 1) = 2 * i + 1 + 1 := by omega
    have e2 : k + 1 + i = k + (i + 1) := by omega
    rw [e2] at ih
    rw [List.enumFrom_cons, List.flatMap_cons, e1]
    simpa [submissionRequests] using ih

theorem length_submissions (u : Nat → String) (rows : List (List String)) (k : Nat) :
    ((rows.enumFrom k).flatMap (fun p => submissionRequests p.1 (u p.1))).length =
      2 * rows.length := by
  have := congrArg List.length (map_index_submissions u rows k)
  simpa using this

theorem options_getElem? {w : World} {ctx : Context} {l : Locals}
    (hb : (buildForm w ctx).res = .ok l) (i : Nat) (hi : i < l.rows.length) :
    ∃ row link fid img, l.rows[i]? = some row ∧ row[2]? = some link ∧
      fileIdOf link = some fid ∧ w.filesGet i fid = .ok img ∧
      l.options[i]? = some ⟨"Option " ++ toString (i + 1), img.thumbnailLink⟩ ∧
      l.links[i]? = some (urlOf w ctx i) := by
  obtain ⟨_, ht, hl, ho, _, _, hall⟩ := buildForm_ok hb
  have hrow : l.rows[i]? = some l.rows[i] := List.getElem?_eq_getElem hi
  have hmem : (i, l.rows[i]) ∈ l.rows.enum := List.mk_mem_enum_iff_getElem?.2 hrow
  obtain ⟨hf, _⟩ := hall _ hmem
  obtain ⟨link, fid, img, h1, h2, h3, h4, _⟩ := (fetchImage_cases w i l.rows[i]).2 _ hf
  refine ⟨l.rows[i], link, fid, img, hrow, h1, h2, h3, ?_, ?_⟩
  · rw [ho, ht]
    simp only [List.getElem?_map, List.getElem?_enum, hrow, Option.map_some']
    rw [← h4]
  · rw [hl]
    simp only [List.getElem?_map, List.getElem?_enum, hrow, Option.map_some']

theorem items_getElem? {w : World} {ctx : Context} {l : Locals}
    (hb : (buildForm w ctx).res = .ok l) (i : Nat) (hi : i < l.rows.length) :
    (createdItems (buildForm w ctx).log)[2 * i + 2]? =
      some ⟨⟨"Option " ++ toString (i + 1), "", .pageBreakItem⟩, 2 * i + 2, []⟩ ∧
    (createdItems (buildForm w ctx).log)[2 * i + 3]? =
      some ⟨⟨"", "", .imageItem (urlOf w ctx i)⟩, 2 * i + 3, []⟩ := by
  obtain ⟨_, _, _, _, _, hlist, _⟩ := buildForm_ok hb
  have hg : (l.rows.enum.flatMap (fun p => submissionRequests p.1 (urlOf w ctx p.1)))[2 * i]? =
        some ⟨⟨"Option " ++ toString (0 + i + 1), "", .pageBreakItem⟩, (0 + i) * 2 + 2, []⟩ ∧
      (l.rows.enum.flatMap (fun p => submissionRequests p.1 (urlOf w ctx p.1)))[2 * i + 1]? =
        some ⟨⟨"", "", .imageItem (urlOf w ctx (0 + i))⟩, (0 + i) * 2 + 3, []⟩ :=
    getElem?_submissions (fun j => urlOf w ctx j) l.rows 0 i hi
  have hlen : (l.rows.enum.flatMap (fun p => submissionRequests p.1 (urlOf w ctx p.1))).length =
      2 * l.rows.length := length_submissions (fun j => urlOf w ctx j) l.rows 0
  obtain ⟨g1, g2⟩ := hg
  rw [Nat.zero_add] at g1 g2
  have hin : introRequests.length = 2 := rfl
  have e1 : 2 * i + 2 - 2 = 2 * i := by omega
  have e2 : 2 * i + 3 - 2 = 2 * i + 1 := by omega
  have e3 : i * 2 + 2 = 2 * i + 2 := by omega
  have e4 : i * 2 + 3 = 2 * i + 3 := by omega
  rw [hlist, List.append_assoc, List.append_assoc]
  constructor
  · rw [List.getElem?_append_right (by rw [hin]; omega), hin, e1,
      List.getElem?_append_left (by rw [hlen]; omega), g1, e3]
  · rw [List.getElem?_append_right (by rw [hin]; omega), hin, e2,
      List.getElem?_append_left (by rw [hlen]; omega), g2, e4]

theorem options_length {w : World} {ctx : Context} {l : Locals}
    (hb : (buildForm w ctx).res = .ok l) :
    l.options.length = l.rows.length ∧ l.links.length = l.rows.length := by
  obtain ⟨_, ht, hl, ho, _, _, _⟩ := buildForm_ok hb
  rw [ho, ht, hl]
  simp [List.enum]

/-- C7: in a run of `main` that completes with `n` submissions, the option list
has `n` entries, and the `i`-th option is labelled `Option i+1`, the title of the
page-break item created at index `2i + 2` in iteration `i`, and carries the
thumbnail link of the Drive metadata fetched in that iteration for the file id
of the `i`-th row of the shuffled list. -/
theorem options_match_rows (w : World) (l : Locals) (h : (main w).res = .ok l) :
    l.options.length = l.rows.length ∧
    ∀ i, i < l.rows.length →
      ∃ row link fid img, l.rows[i]? = some row ∧ row[2]? = some link ∧
        fileIdOf link = some fid ∧ w.filesGet i fid = .ok img ∧
        l.options[i]? = some ⟨"Option " ++ toString (i + 1), img.thumbnailLink⟩ ∧
        (createdItems (main w).log)[2 * i + 2]? =
          some ⟨⟨"Option " ++ toString (i + 1), "", .pageBreakItem⟩, 2 * i + 2, []⟩ := by
  obtain ⟨ctx, _, _, hb, hitems⟩ := main_ok h
  refine ⟨(options_length hb).1, fun i hi => ?_⟩
  obtain ⟨row, link, fid, img, h1, h2, h3, h4, h5, _⟩ := options_getElem? hb i hi
  exact ⟨row, link, fid, img, h1, h2, h3, h4, h5, by rw [hitems]; exact (items_getElem? hb i hi).1⟩

/-- C7 in `demoWorld`, first option. -/
theorem options_match_rows_witness :
    (main demoWorld).res = .ok demoLocals ∧
    ∃ row link fid img, demoLocals.rows[0]? = some row ∧ row[2]? = some link ∧
      fileIdOf link = some fid ∧ demoWorld.filesGet 0 fid = .ok img ∧
      demoLocals.options[0]? = some ⟨"Option " ++ toString (0 + 1), img.thumbnailLink⟩ ∧
      (createdItems (main demoWorld).log)[2 * 0 + 2]? =
        some ⟨⟨"Option " ++ toString (0 + 1), "", .pageBreakItem⟩, 2 * 0 + 2, []⟩ :=
  ⟨rfl, (options_match_rows demoWorld demoLocals rfl).2 0 (by decide)⟩

/-- C6 as stated fails in `demoWorld`: the run completes, the first
submission's page shows the re-hosted URL `https://host/u`, which is also
`links[0]`, but the first voting option carries `thumb:B2`, the thumbnail link
of the Drive metadata. -/
theorem option_image_not_rehosted_url :
    (main demoWorld).res = .ok demoLocals ∧
    demoLocals.links[0]? = some "https://host/u" ∧
    (createdItems (main demoWorld).log)[3]? =
      some ⟨⟨"", "", .imageItem "https://host/u"⟩, 3, []⟩ ∧
    demoLocals.options[0]? = some ⟨"Option 1", "thumb:B2"⟩ ∧
    "thumb:B2" ≠ "https://host/u" :=
  ⟨rfl, rfl, by decide, rfl, by decide⟩

/-- C6, amended: in a run of `main` that completes, the image of the `i`-th
voting option is the thumbnail link of the Drive metadata fetched for the
`i`-th submission; the URL obtained by re-hosting (or the placeholder) is the
one shown on the submission's page, at index `2i + 3`, and stored in
`links[i]`. -/
theorem option_image_is_thumbnail (w : World) (l : Locals) (h : (main w).res = .ok l) :
    l.options.length = l.rows.length ∧ l.links.length = l.rows.length ∧
    ∀ i, i < l.rows.length →
      ∃ row link fid img url, l.rows[i]? = some row ∧ row[2]? = some link ∧
        fileIdOf link = some fid ∧ w.filesGet i fid = .ok img ∧
        (l.options[i]?).map (·.image) = some img.thumbnailLink ∧
        l.links[i]? = some url ∧
        (createdItems (main w).log)[2 * i + 3]? =
          some ⟨⟨"", "", .imageItem url⟩, 2 * i + 3, []⟩ := by
  obtain ⟨ctx, _, _, hb, hitems⟩ := main_ok h
  refine ⟨(options_length hb).1, (options_length hb).2, fun i hi => ?_⟩
  obtain ⟨row, link, fid, img, h1, h2, h3, h4, h5, h6⟩ := options_getElem? hb i hi
  exact ⟨row, link, fid, img, urlOf w ctx i, h1, h2, h3, h4, by rw [h5]; rfl, h6,
    by rw [hitems]; exact (items_getElem? hb i hi).2⟩

/-- The amended C6 in `demoWorld`, second submission (whose upload failed). -/
theorem option_image_is_thumbnail_witness :
    (main demoWorld).res = .ok demoLocals ∧
    ∃ row link fid img url, demoLocals.rows[1]? = some row ∧ row[2]? = some link ∧
      fileIdOf link = some fid ∧ demoWorld.filesGet 1 fid = .ok img ∧
      (demoLocals.options[1]?).map (·.image) = some img.thumbnailLink ∧
      demoLocals.links[1]? = some url ∧
      (createdItems (main demoWorld).log)[2 * 1 + 3]? =
        some ⟨⟨"", "", .imageItem url⟩, 2 * 1 + 3, []⟩ :=
  ⟨rfl, (option_image_is_thumbnail demoWorld demoLocals rfl).2.2 1 (by decide)⟩

theorem categoryTitle_eq (cat : String) :
    categoryTitle cat = "Which entries fit \"" ++ cat ++
      "\" best? Vote up to 3! (Please remember to try to vote for different entries for each category!)" := by
  unfold categoryTitle
  rw [String.append_assoc, String.append_assoc]
  rfl

/-- C5: in a run of `main` that completes with `n` submissions, the items
created after the first `2n + 2` (none of which is a choice question) are, for
each category of the command line in order, a page break titled with the
category followed by a required `CHECKBOX` question whose title contains the
category and whose options are the full list of the `n` image options; then
come the four closing items. -/
theorem category_questions (w : World) (l : Locals) (h : (main w).res = .ok l) :
    l.options.length = l.rows.length ∧
    (∃ pre : List CreateItemRequest, pre.length = 2 * l.rows.length + 2 ∧
      (∀ r ∈ pre, r.item.kind = .pageBreakItem ∨ (∃ u, r.item.kind = .imageItem u) ∨
        ∃ a b, r.item.kind = .textQuestion a b) ∧
      createdItems (main w).log = pre ++
        (w.args.drop 3).enum.flatMap (fun p =>
          [⟨⟨p.2, "", .pageBreakItem⟩, l.rows.length * 2 + 2 + 2 * p.1, []⟩,
           ⟨⟨categoryTitle p.2, "", .choiceQuestion true "CHECKBOX" l.options false⟩,
             l.rows.length * 2 + 2 + 2 * p.1 + 1, []⟩]) ++
        closingRequests (l.rows.length * 2 + 2 + 2 * (w.args.drop 3).length) l.options) ∧
    ∀ cat, categoryTitle cat = "Which entries fit \"" ++ cat ++
      "\" best? Vote up to 3! (Please remember to try to vote for different entries for each category!)" := by
  obtain ⟨ctx, _, hcat, hb, hitems⟩ := main_ok h
  obtain ⟨_, _, _, _, _, hlist, _⟩ := buildForm_ok hb
  refine ⟨(options_length hb).1, ⟨introRequests ++
    l.rows.enum.flatMap (fun p => submissionRequests p.1 (urlOf w ctx p.1)), ?_, ?_, ?_⟩,
    categoryTitle_eq⟩
  · have hlen : (l.rows.enum.flatMap
        (fun p => submissionRequests p.1 (urlOf w ctx p.1))).length = 2 * l.rows.length :=
      length_submissions (fun j => urlOf w ctx j) l.rows 0
    rw [List.length_append, hlen]
    have hin : introRequests.length = 2 := rfl
    omega
  · intro r hr
    rw [List.mem_append] at hr
    rcases hr with hr | hr
    · simp [introRequests] at hr
      rcases hr with rfl | rfl
      · exact Or.inr (Or.inr ⟨_, _, rfl⟩)
      · exact Or.inl rfl
    · rw [List.mem_flatMap] at hr
      obtain ⟨p, _, hp⟩ := hr
      simp [submissionRequests] at hp
      rcases hp with rfl | rfl
      · exact Or.inl rfl
      · exact Or.inr (Or.inl ⟨_, rfl⟩)
  · rw [hitems, hlist, hcat]
    rfl

/-- C5 in `demoWorld`: two submissions and the one category `Cutest`. -/
theorem category_questions_witness :
    (main demoWorld).res = .ok demoLocals ∧
    ∃ pre : List CreateItemRequest, pre.length = 2 * demoLocals.rows.length + 2 ∧
      (∀ r ∈ pre, r.item.kind = .pageBreakItem ∨ (∃ u, r.item.kind = .imageItem u) ∨
        ∃ a b, r.item.kind = .textQuestion a b) ∧
      createdItems (main demoWorld).log = pre ++
        (demoWorld.args.drop 3).enum.flatMap (fun p =>
          [⟨⟨p.2, "", .pageBreakItem⟩, demoLocals.rows.length * 2 + 2 + 2 * p.1, []⟩,
           ⟨⟨categoryTitle p.2, "", .choiceQuestion true "CHECKBOX" demoLocals.options false⟩,
             demoLocals.rows.length * 2 + 2 + 2 * p.1 + 1, []⟩]) ++
        closingRequests (demoLocals.rows.length * 2 + 2 + 2 * (demoWorld.args.drop 3).length)
          demoLocals.options :=
  ⟨rfl, (category_questions demoWorld demoLocals rfl).2.1⟩

/-! ### Fail-fast -/

theorem clean_nil : Clean [] := fun _ h => absurd h (List.not_mem_nil _)

theorem clean_append {l1 l2 : List Event} (h1 : Clean l1) (h2 : Clean l2) : Clean (l1 ++ l2) := by
  intro ev hev
  rcases List.mem_append.1 hev with h | h
  · exact h1 ev h
  · exact h2 ev h

theorem failFast_of_log_nil {α : Type} {p : Prog α} (h : p.log = []) : FailFast p :=
  ⟨[], [], by rw [h]; rfl, clean_nil, Nat.zero_le _, fun _ hev => absurd hev (List.not_mem_nil _)⟩

theorem failFast_pure {α : Type} (a : α) : FailFast (pure a : Prog α) :=
  failFast_of_log_nil rfl

theorem failFast_index {α : Type} (xs : List α) (i : Nat) : FailFast (index xs i) :=
  failFast_of_log_nil (by unfold index; split <;> rfl)

theorem failFast_panic {α : Type} (msg : String) : FailFast (panic msg : Prog α) :=
  failFast_of_log_nil rfl

/-- When the first part completed, all its calls were clean. -/
theorem clean_of_ok {α : Type} {p : Prog α} {a : α} (hp : FailFast p) (h : p.res = .ok a) :
    Clean p.log := by
  obtain ⟨pre, last, hl, hc, _, hlast⟩ := hp
  rw [hl]
  refine clean_append hc ?_
  intro ev hev hchk
  cases he : ev.err with
  | none => rfl
  | some e =>
    obtain ⟨st, hst, _⟩ := hlast ev hev e hchk he
    rw [h] at hst
    simp at hst

theorem failFast_bind {α β : Type} {m : Prog α} {f : α → Prog β} (hm : FailFast m)
    (hf : ∀ a, FailFast (f a)) : FailFast (m >>= f) := by
  cases h : m.res with
  | error st =>
    rw [bind_def, bind_of_error _ h]
    obtain ⟨pre, last, hl, hc, hn, hlast⟩ := hm
    refine ⟨pre, last, hl, hc, hn, ?_⟩
    intro ev hev e hchk he
    obtain ⟨st1, hst, hs⟩ := hlast ev hev e hchk he
    have e1 : st = st1 := by
      rw [h] at hst
      exact Except.error.inj hst
    subst e1
    exact ⟨st, rfl, hs⟩
  | ok a =>
    rw [bind_def, bind_of_ok _ h]
    obtain ⟨pre, last, hl, hc, hn, hlast⟩ := hf a
    exact ⟨m.log ++ pre, last, by simp [hl], clean_append (clean_of_ok hm h) hc, hn, hlast⟩

/-- A checked call together with its `if err != nil { log.Fatalf(...) }`. -/
theorem failFast_call_check {α β : Type} (c : Call) (r : Except Err α) (msg : String)
    (k : α → Prog β) (hk : ∀ a, FailFast (k a)) :
    FailFast (call c r >>= fun x => check x msg >>= k) := by
  cases r with
  | error e =>
    refine ⟨[], [⟨c, some e⟩], rfl, clean_nil, Nat.le_refl _, ?_⟩
    intro ev hev e1 _ he
    simp at hev
    subst hev
    simp at he
    subst he
    exact ⟨.fatal (msg ++ e), rfl, Or.inr ⟨msg, rfl⟩⟩
  | ok a =>
    obtain ⟨pre, last, hl, hc, hn, hlast⟩ := hk a
    refine ⟨⟨c, none⟩ :: pre, last, ?_, ?_, hn, hlast⟩
    · simp [hl]
    · intro ev hev hchk
      rcases List.mem_cons.1 hev with rfl | h
      · rfl
      · exact hc ev h hchk

theorem bind_pure_right {α : Type} (m : Prog α) : Prog.bind m pure = m := by
  obtain ⟨l, r⟩ := m
  cases r <;> simp [Prog.bind]

/-- A checked call with its check, as the last statement. -/
theorem failFast_call_check_last {α : Type} (c : Call) (r : Except Err α) (msg : String) :
    FailFast (call c r >>= fun x => check x msg) := by
  have := failFast_call_check c r msg pure (fun x => failFast_pure x)
  simp only [bind_def, bind_pure_right] at this
  exact this

/-- A call whose error is not checked. -/
theorem failFast_call_unchecked {α β : Type} (c : Call) (r : Except Err α)
    (k : Except Err α → Prog β) (hc : isChecked c = false) (hk : ∀ x, FailFast (k x)) :
    FailFast (call c r >>= k) := by
  obtain ⟨pre, last, hl, hcl, hn, hlast⟩ := hk r
  refine ⟨⟨c, errOf r⟩ :: pre, last, ?_, ?_, hn, hlast⟩
  · simp [hl]
  · intro ev hev hchk
    rcases List.mem_cons.1 hev with rfl | h
    · rw [hc] at hchk; simp at hchk
    · exact hcl ev h hchk

/-- A call that cannot fail (printing). -/
theorem failFast_call_ok {α β : Type} (c : Call) (a : α)
    (k : Except Err α → Prog β) (hk : ∀ x, FailFast (k x)) :
    FailFast (call c (.ok a) >>= k) := by
  obtain ⟨pre, last, hl, hcl, hn, hlast⟩ := hk (.ok a)
  refine ⟨⟨c, none⟩ :: pre, last, ?_, ?_, hn, hlast⟩
  · simp [hl]
  · intro ev hev hchk
    rcases List.mem_cons.1 hev with rfl | h
    · rfl
    · exact hcl ev h hchk

theorem failFast_forRange {α σ : Type} (body : Nat → α → σ → Prog σ)
    (hb : ∀ i x s, FailFast (body i x s)) :
    ∀ (xs : List α) (i : Nat) (s : σ), FailFast (forRange body i xs s)
  | [], _, s => failFast_pure s
  | x :: xs, i, s => by
    rw [forRange_cons, ← bind_def]
    exact failFast_bind (hb i x s) (fun s1 => failFast_forRange body hb xs (i + 1) s1)

theorem failFast_tokenFromFile (w : World) (file : String) : FailFast (tokenFromFile w file) := by
  unfold tokenFromFile
  refine failFast_call_unchecked _ _ _ rfl fun x => ?_
  cases x with
  | error e => exact failFast_pure _
  | ok u =>
    have := failFast_call_unchecked (β := Except Err Unit) .decodeToken w.decodeToken pure rfl
      (fun x => failFast_pure x)
    simp only [bind_def, bind_pure_right] at this
    exact this

theorem failFast_getTokenFromWeb (w : World) : FailFast (getTokenFromWeb w) := by
  unfold getTokenFromWeb
  refine failFast_call_ok _ _ _ fun _ => ?_
  refine failFast_call_check _ _ _ _ fun _ => ?_
  exact failFast_call_check_last _ _ _

theorem failFast_saveToken (w : World) (path : String) : FailFast (saveToken w path) := by
  unfold saveToken
  refine failFast_call_ok _ _ _ fun _ => ?_
  refine failFast_call_check _ _ _ _ fun _ => ?_
  refine failFast_call_unchecked _ _ _ rfl fun _ => ?_
  exact failFast_pure _

theorem failFast_getClient (w : World) : FailFast (getClient w) := by
  unfold getClient
  refine failFast_bind (failFast_tokenFromFile w _) fun x => ?_
  cases x with
  | error e => exact failFast_bind (failFast_getTokenFromWeb w) fun _ => failFast_saveToken w _
  | ok u => exact failFast_pure _

theorem failFast_printRow (i : Nat) (row : List String) (s : Unit) :
    FailFast (printRow i row s) := by
  unfold printRow
  refine failFast_bind (failFast_index _ _) fun _ => ?_
  refine failFast_bind (failFast_index _ _) fun _ => ?_
  refine failFast_call_ok _ _ _ fun _ => ?_
  exact failFast_pure _

theorem failFast_setup (w : World) : FailFast (setup w) := by
  unfold setup
  repeat (first
    | with_reducible exact failFast_pure _
    | with_reducible exact failFast_forRange _ failFast_printRow _ _ _
    | with_reducible refine failFast_bind (failFast_index _ _) fun _ => ?_
    | with_reducible refine failFast_bind (failFast_getClient _) fun _ => ?_
    | with_reducible refine failFast_bind (failFast_forRange _ failFast_printRow _ _ _) fun _ => ?_
    | with_reducible refine failFast_call_check _ _ _ _ fun _ => ?_
    | refine failFast_call_unchecked _ _ _ rfl fun _ => ?_)

theorem failFast_fetchImage (w : World) (i : Nat) (row : List String) :
    FailFast (fetchImage w i row) := by
  unfold fetchImage
  repeat (first
    | with_reducible exact failFast_pure _
    | with_reducible refine failFast_bind (failFast_index _ _) fun _ => ?_
    | with_reducible refine failFast_call_check _ _ _ _ fun _ => ?_)

theorem failFast_rehost (w : World) (ctx : Context) (i : Nat) : FailFast (rehost w ctx i) := by
  rcases rehost_cases w ctx i with ⟨e1, _, hr⟩ | ⟨e1, hu, hr⟩ | ⟨resp, u, hu, hp, hr⟩ |
    ⟨resp, e1, hu, hp, hr⟩
  · rw [hr]
    refine ⟨[], [⟨.mustOpen "img", some e1⟩], rfl, clean_nil, Nat.le_refl _, ?_⟩
    intro ev hev e _ he
    simp at hev
    subst hev
    simp at he
    subst he
    exact ⟨_, rfl, Or.inl rfl⟩
  · rw [hr]
    refine ⟨_, [], (List.append_nil _).symm, ?_, Nat.zero_le _,
      fun _ hev => absurd hev (List.not_mem_nil _)⟩
    intro ev hev hchk
    simp at hev
    rcases hev with rfl | rfl
    · rfl
    · simp [isChecked] at hchk
  · rw [hr]
    refine ⟨_, [], (List.append_nil _).symm, ?_, Nat.zero_le _,
      fun _ hev => absurd hev (List.not_mem_nil _)⟩
    intro ev hev hchk
    simp at hev
    rcases hev with rfl | rfl | rfl <;> rfl
  · rw [hr]
    refine ⟨[⟨.mustOpen "img", none⟩, ⟨.upload ctx.posturl, none⟩],
      [⟨.getString resp ["image", "url"], some e1⟩], rfl, ?_, Nat.le_refl _, ?_⟩
    · intro ev hev hchk
      simp at hev
      rcases hev with rfl | rfl <;> rfl
    · intro ev hev e _ he
      simp at hev
      subst hev
      simp at he
      subst he
      exact ⟨_, rfl, Or.inr ⟨_, rfl⟩⟩

theorem failFast_submissionStep (w : World) (ctx : Context) (i : Nat) (row : List String)
    (s : Lists) : FailFast (submissionStep w ctx i row s) := by
  unfold submissionStep
  refine failFast_bind (failFast_fetchImage w i row) fun _ => ?_
  refine failFast_bind (failFast_rehost w ctx i) fun _ => ?_
  refine failFast_call_check _ _ _ _ fun _ => ?_
  exact failFast_pure _

theorem failFast_categoryStep (w : World) (ctx : Context) (opts : List FormOption) (i : Nat)
    (cat : String) (loc : Nat) : FailFast (categoryStep w ctx opts i cat loc) := by
  unfold categoryStep
  refine failFast_call_check _ _ _ _ fun _ => ?_
  exact failFast_pure _

theorem failFast_buildForm (w : World) (ctx : Context) : FailFast (buildForm w ctx) := by
  unfold buildForm
  refine failFast_call_check _ _ _ _ fun _ => ?_
  refine failFast_bind ?_ fun rows => ?_
  · unfold randomize
    cases shuffle w.intn ctx.rows with
    | none => exact failFast_panic _
    | some r => exact failFast_pure _
  refine failFast_bind (failFast_forRange _ (failFast_submissionStep w ctx) _ _ _) fun _ => ?_
  refine failFast_call_ok _ _ _ fun _ => ?_
  refine failFast_bind (failFast_forRange _ (failFast_categoryStep w ctx _) _ _ _) fun _ => ?_
  refine failFast_call_check _ _ _ _ fun _ => ?_
  exact failFast_pure _

theorem failFast_main (w : World) : FailFast (main w) := by
  unfold main
  exact failFast_bind (failFast_setup w) fun ctx => failFast_buildForm w ctx

/-- C4 as stated fails in `tokenlessWorld`: opening `token.json` returns an
error (event 4), yet the run goes on (event 5 is the prompt of the browser
flow) and completes. -/
theorem token_read_failure_not_fatal :
    (main tokenlessWorld).log[4]? =
      some ⟨.osOpen "token.json", some "open token.json: no such file or directory"⟩ ∧
    (main tokenlessWorld).log[5]? =
      some ⟨.printf "Go to the following link in your browser", none⟩ ∧
    (main tokenlessWorld).log.length = 42 ∧
    (main tokenlessWorld).res = .ok demoLocals :=
  ⟨by decide, by decide, by decide, rfl⟩

/-- In `formlessWorld` the error of `Forms.Create` (event 15) is dropped: the
next call is the Drive listing of main.go 224 and the run completes. -/
theorem formsCreate_error_dropped :
    (main formlessWorld).log[15]? =
      some ⟨.formsCreate "Pokémon Workshop Art Contest #7 Pikachu Voting",
        some "forms: permission denied"⟩ ∧
    (main formlessWorld).log[16]? =
      some ⟨.filesList "name contains 'Art Contest #7 Voting'", none⟩ ∧
    (main formlessWorld).res = .ok demoLocals :=
  ⟨by decide, by decide, rfl⟩

/-- C4, amended: when a checked call of `main` (every call except the image
upload, the reading of the cached token, and the two calls whose result is
dropped) returns an error, it is the last call of the run, and the run stops
there: by `log.Fatalf` with a message ending in the error, or for `mustOpen` by
a panic with the error. -/
theorem checked_call_failure_is_fatal (w : World) (i : Nat) (c : Call) (e : Err)
    (hev : (main w).log[i]? = some ⟨c, some e⟩) (hc : isChecked c = true) :
    i + 1 = (main w).log.length ∧
    ∃ st, (main w).res = .error st ∧ (st = .panic e ∨ ∃ msg, st = .fatal (msg ++ e)) := by
  obtain ⟨pre, last, hl, hclean, hn, hlast⟩ := failFast_main w
  rw [hl] at hev ⊢
  by_cases hi : i < pre.length
  · rw [List.getElem?_append_left hi] at hev
    have hmem : (⟨c, some e⟩ : Event) ∈ pre := List.mem_iff_getElem?.2 ⟨_, hev⟩
    have := hclean _ hmem hc
    simp at this
  · rw [List.getElem?_append_right (Nat.le_of_not_lt hi)] at hev
    have hmem : (⟨c, some e⟩ : Event) ∈ last := List.mem_iff_getElem?.2 ⟨_, hev⟩
    obtain ⟨hlt, _⟩ := List.getElem?_eq_some.1 hev
    refine ⟨?_, hlast _ hmem e hc rfl⟩
    rw [List.length_append]
    omega

/-- The amended C4 in `brokenWorld`: building the Sheets client fails at event 7,
which is the last of the run. -/
theorem checked_call_failure_is_fatal_witness :
    (main brokenWorld).log[7]? = some ⟨.newSheetsService, some "sheets: no transport"⟩ ∧
    7 + 1 = (main brokenWorld).log.length :=
  ⟨by decide,
    (checked_call_failure_is_fatal brokenWorld 7 .newSheetsService "sheets: no transport"
      (by decide) rfl).1⟩

end Run

end Contester
